import Mathlib

/-!
Verification development for the iiko Telegram analytics bot
(`iiko_client.py`, `iiko_server_client.py`).

The Python clients are shallowly embedded: JSON-like payloads become the
inductive type `JVal`, Python truthiness, `or`-chains, `float()` coercion and
dict lookups become explicit Lean functions, and the analysis / parsing /
classification routines of the two client classes become computable Lean
definitions mirroring the source line by line.  Machine floats are modelled by
`ℚ`; the claims under study concern branching, ordering and aggregation, not
floating-point rounding.
-/

/-- Kernel-reducible addition on `ℚ`.  `Rat.add` is `@[irreducible]`, which
blocks `decide`/`rfl` evaluation of the embedded programs on concrete inputs;
`qadd` is the same normalized-fraction construction (see `Rat.add_def`) built
from the reducible `Rat.normalize`. -/
def qadd (a b : ℚ) : ℚ :=
  Rat.normalize (a.num * b.den + b.num * a.den) (a.den * b.den)
    (Nat.mul_ne_zero a.den_nz b.den_nz)

/-- Kernel-reducible multiplication on `ℚ` (see `Rat.mul_def`). -/
def qmul (a b : ℚ) : ℚ :=
  Rat.normalize (a.num * b.num) (a.den * b.den)
    (Nat.mul_ne_zero a.den_nz b.den_nz)

/-- Kernel-reducible inverse on `ℚ` (see `Rat.inv_def`). -/
def qinv (a : ℚ) : ℚ := Rat.divInt a.den a.num

/-- Kernel-reducible division on `ℚ` (see `Rat.div_def`). -/
def qdiv (a b : ℚ) : ℚ := qmul a (qinv b)

theorem qadd_eq (a b : ℚ) : qadd a b = a + b := by
  rw [Rat.add_def]; rfl

theorem qmul_eq (a b : ℚ) : qmul a b = a * b := by
  rw [Rat.mul_def]; rfl

theorem qinv_eq (a : ℚ) : qinv a = a⁻¹ := (Rat.inv_def a).symm

theorem qdiv_eq (a b : ℚ) : qdiv a b = a / b := by
  rw [Rat.div_def, qdiv, qmul_eq, qinv_eq]
  rfl

/-- Digits of a decimal literal read as a natural number; any non-digit
character makes the whole read fail (as Python `float()` does).  The empty
list reads as `0` so that callers can allow `"1."` and `".5"` forms. -/
def digitsToNat? (cs : List Char) : Option ℕ :=
  cs.foldl
    (fun acc c =>
      acc.bind (fun n => if c.isDigit then some (10 * n + (c.toNat - 48)) else none))
    (some 0)

/-- Unsigned decimal literal `digits[.digits]`, requiring at least one digit
overall, as accepted by Python `float()` on the numeric strings the backends
emit.  Exponent forms, infinities and surrounding whitespace are not data
shapes these clients receive and are mapped to failure. -/
def parseUnsignedDecimal (cs : List Char) : Option ℚ :=
  match cs.splitOn '.' with
  | [w] =>
      if w.isEmpty then none
      else (digitsToNat? w).map (fun n => (n : ℚ))
  | [w, f] =>
      if w.isEmpty && f.isEmpty then none
      else
        (digitsToNat? w).bind (fun wn =>
          (digitsToNat? f).map (fun fn =>
            qadd (wn : ℚ) (qdiv (fn : ℚ) ((10 ^ f.length : ℕ) : ℚ))))
  | _ => none

/-- Python `float()` on a string: optional sign followed by a decimal
literal. -/
def pyFloatOfString (s : String) : Option ℚ :=
  match s.toList with
  | '-' :: rest => (parseUnsignedDecimal rest).map (fun q => -q)
  | '+' :: rest => parseUnsignedDecimal rest
  | cs => parseUnsignedDecimal cs

/-- JSON-like values as delivered by the iiko backends: the payloads the
Python code traverses with `.get`, truthiness tests and `float()`. -/
inductive JVal where
  | jnull : JVal
  | jbool : Bool → JVal
  | jnum : ℚ → JVal
  | jstr : String → JVal
  | jarr : List JVal → JVal
  | jobj : List (String × JVal) → JVal

/-- Python truthiness of an embedded value: `None`, `False`, `0`, `""` and
empty containers are falsy, everything else truthy. -/
def JVal.truthy : JVal → Bool
  | .jnull => false
  | .jbool b => b
  | .jnum q => if q = 0 then false else true
  | .jstr s => if s = "" then false else true
  | .jarr xs => if xs.isEmpty then false else true
  | .jobj fs => if fs.isEmpty then false else true

/-- Python `a or b` on embedded values: `a` if truthy, else `b`. -/
def pyOrJ (a b : JVal) : JVal := if a.truthy then a else b

/-- Association-list find with propositional key equality, modelling Python
dict lookup (`m.get(k)`); the embedded dicts hold each key once. -/
def assocFind {α : Type} : List (String × α) → String → Option α
  | [], _ => none
  | (k0, v) :: rest, k => if k0 = k then some v else assocFind rest k

/-- Python dict write `m[k] = f(m.get(k, d))` as used through `defaultdict`:
modify in place when the key exists, else append the key with the default
modified. -/
def updateAssoc {α : Type} : List (String × α) → String → α → (α → α) → List (String × α)
  | [], k, d, f => [(k, f d)]
  | (k0, v0) :: rest, k, d, f =>
      if k0 = k then (k0, f v0) :: rest else (k0, v0) :: updateAssoc rest k d f

/-- Python `dict.get(key)` with default `None`: association-list lookup on an
object, `None` on a missing key or a non-object. -/
def JVal.get : JVal → String → JVal
  | .jobj fs, k => (assocFind fs k).getD .jnull
  | .jnull, _ => .jnull
  | .jbool _, _ => .jnull
  | .jnum _, _ => .jnull
  | .jstr _, _ => .jnull
  | .jarr _, _ => .jnull

/-- Python `dict.get(key, default)`. -/
def JVal.getD : JVal → String → JVal → JVal
  | .jobj fs, k, d => (assocFind fs k).getD d
  | .jnull, _, d => d
  | .jbool _, _, d => d
  | .jnum _, _, d => d
  | .jstr _, _, d => d
  | .jarr _, _, d => d

/-- Python `dict.get(key, default)` restricted to list-valued defaults is not
needed; list extraction for `order_obj.get("items", [])` and friends: the
stored array if present, `[]` otherwise. -/
def JVal.getArr (v : JVal) (k : String) : List JVal :=
  match v.get k with
  | .jarr xs => xs
  | .jnull => []
  | .jbool _ => []
  | .jnum _ => []
  | .jstr _ => []
  | .jobj _ => []

/-- Embedding of `IikoClient._safe_float`: `float(value)` with every failure
mapped to `0.0`.  Python `float()` maps `True`/`False` to `1.0`/`0.0`,
parses decimal strings, and raises (here: is caught, giving `0`) on `None`,
lists and dicts. -/
def safe_float : JVal → ℚ
  | .jnum q => q
  | .jbool b => if b then 1 else 0
  | .jstr s => (pyFloatOfString s).getD 0
  | .jnull => 0
  | .jarr _ => 0
  | .jobj _ => 0

/-- Python `str(...)`-as-dict-key for the scalar values that actually occur in
order payloads (strings, numbers, booleans, `None`).  Containers are
unhashable as dict keys in Python and never occur in the fields so used; the
embedding maps them to `""`. -/
def JVal.asKey : JVal → String
  | .jstr s => s
  | .jnum q => toString q
  | .jbool b => if b then "True" else "False"
  | .jnull => "None"
  | .jarr _ => ""
  | .jobj _ => ""

/-- Python string slice `s[a:b]` (character positions, clamped). -/
def strSlice (s : String) (a b : ℕ) : String :=
  String.mk ((s.toList.drop a).take (b - a))

/-- Character lists: `needle` matches at the head of `hay`. -/
def charsAtHead : List Char → List Char → Bool
  | [], _ => true
  | _ :: _, [] => false
  | a :: as, b :: bs => a == b && charsAtHead as bs

/-- Character lists: `needle` occurs contiguously somewhere in `hay`. -/
def charsContain : List Char → List Char → Bool
  | [], needle => needle.isEmpty
  | c :: t, needle => charsAtHead needle (c :: t) || charsContain t needle

/-- Python `needle in hay` substring test. -/
def strContains (hay needle : String) : Bool :=
  charsContain hay.toList needle.toList

/-- Python `ch.lower()` on the character repertoire these clients handle:
ASCII letters, the Cyrillic range А-Я and Ё.  Other caseful scripts do not
occur in the menu data or the fixed keyword tables. -/
def pyCharLower (c : Char) : Char :=
  if 65 ≤ c.toNat ∧ c.toNat ≤ 90 then Char.ofNat (c.toNat + 32)
  else if 0x410 ≤ c.toNat ∧ c.toNat ≤ 0x42F then Char.ofNat (c.toNat + 32)
  else if c.toNat = 0x401 then Char.ofNat 0x451
  else c

/-- Python `s.lower()`. -/
def pyLower (s : String) : String := String.mk (s.toList.map pyCharLower)

/-- Python `s.strip()`: drop leading and trailing whitespace. -/
def pyStrip (s : String) : String :=
  String.mk
    (((s.toList.dropWhile Char.isWhitespace).reverse.dropWhile Char.isWhitespace).reverse)

namespace IikoClient

/-- BAR_GROUPS of `iiko_client.py` (`IikoClient`): groups that belong to the
bar. -/
def BAR_GROUPS : List String :=
  ["алкогольные коктейли", "бар", "безалкогольные напитки",
   "бренди и коньяк", "вермут", "вино", "вино безалкогольное",
   "вино белое", "вино игристое", "вино красное", "вино оранжевое",
   "вино розовое", "вино по бокалам", "виски", "вода", "водка",
   "газированные напитки", "джин", "кофе", "крафтовый чай",
   "крепкий алкоголь", "ликеры и настойки", "лимонады",
   "милкшейки и сладкие напитки", "пиво", "пиво бутылочное",
   "разливное пиво", "ром", "сок", "текила", "чай",
   "соки&морс&gazirovka", "water"]

/-- BAR_KEYWORDS of `iiko_client.py`: if the group (or the name) contains any
of these, the item is bar. -/
def BAR_KEYWORDS : List String :=
  ["вино", "вин", "коктейл", "пиво", "виски", "водка", "джин",
   "ром", "текила", "коньяк", "бренди", "ликер", "настойк",
   "вермут", "шампанск", "игрист", "кофе", "чай", "сок",
   "лимонад", "напиток", "милкшейк", "вода", "water", "бар"]

/-- Embedding of `IikoClient._is_bar_item`: exact lower-cased trimmed group
membership in BAR_GROUPS, else a bar keyword occurring in the group, else one
occurring in the name. -/
def is_bar_item (name group : String) : Bool :=
  let g := pyStrip (pyLower group)
  let n := pyStrip (pyLower name)
  if BAR_GROUPS.contains g then true
  else if BAR_KEYWORDS.any (fun kw => strContains g kw) then true
  else BAR_KEYWORDS.any (fun kw => strContains n kw)

end IikoClient

namespace IikoServerClient

/-- BAR_GROUPS of `iiko_server_client.py` (`IikoServerClient`): used to filter
kitchen positions for the productivity report. -/
def BAR_GROUPS : List String :=
  ["алкогольные коктейли", "бар", "безалкогольные напитки",
   "бренди и коньяк", "вермут", "вино", "вино безалкогольное",
   "вино белое", "вино игристое", "вино красное", "вино оранжевое",
   "вино розовое", "вино по бокалам", "виски", "вода", "водка",
   "газированные напитки", "джин", "кофе", "крафтовый чай",
   "крепкий алкоголь", "ликеры и настойки", "лимонады",
   "милкшейки и сладкие напитки", "пиво", "пиво бутылочное",
   "разливное пиво", "ром", "сок", "текила", "чай",
   "соки&морс&gazirovka", "water"]

/-- Embedding of `IikoServerClient._is_bar_group`: exact lower-cased trimmed
membership in BAR_GROUPS, nothing else. -/
def is_bar_group (group_name : String) : Bool :=
  BAR_GROUPS.contains (pyStrip (pyLower group_name))

end IikoServerClient

/-- Boolean normal form of `is_bar_item`: the three checks joined by `||`. -/
theorem is_bar_item_eq_or (name group : String) :
    IikoClient.is_bar_item name group =
      (IikoClient.BAR_GROUPS.contains (pyStrip (pyLower group)) ||
       IikoClient.BAR_KEYWORDS.any (fun kw => strContains (pyStrip (pyLower group)) kw) ||
       IikoClient.BAR_KEYWORDS.any (fun kw => strContains (pyStrip (pyLower name)) kw)) := by
  simp only [IikoClient.is_bar_item]
  cases hc : IikoClient.BAR_GROUPS.contains (pyStrip (pyLower group)) <;>
    cases ha : IikoClient.BAR_KEYWORDS.any (fun kw => strContains (pyStrip (pyLower group)) kw) <;>
    simp [hc, ha]


/-- C7: `_is_bar_item` is a total deterministic function of the (name, group)
pair: it returns bar (true) exactly when the lower-cased trimmed group is in
the fixed bar-group set, or else some bar keyword occurs as a substring of
the group, or else one occurs in the name, and kitchen (false) otherwise;
classifying the same pair twice yields the same result and no outcome other
than bar or kitchen is possible. -/
theorem C7_is_bar_item_total_deterministic (name group : String) :
    (IikoClient.is_bar_item name group = IikoClient.is_bar_item name group) ∧
    (IikoClient.is_bar_item name group = true ∨ IikoClient.is_bar_item name group = false) ∧
    (IikoClient.is_bar_item name group = true ↔
      (pyStrip (pyLower group) ∈ IikoClient.BAR_GROUPS ∨
       (∃ kw ∈ IikoClient.BAR_KEYWORDS, strContains (pyStrip (pyLower group)) kw = true) ∨
       (∃ kw ∈ IikoClient.BAR_KEYWORDS, strContains (pyStrip (pyLower name)) kw = true))) := by
  refine ⟨rfl, by cases IikoClient.is_bar_item name group <;> simp, ?_⟩
  rw [is_bar_item_eq_or]
  simp only [Bool.or_eq_true, List.any_eq_true, List.contains, List.elem_iff]
  exact or_assoc

/-- C8 counterexample: the stop-list classifier and the productivity-filter
classifier disagree on the pair (name "кофе латте", group "другое"): the
first classifies it bar (the keyword "кофе" occurs in the name), the second
kitchen (the group is not in the fixed bar-group set and no other check is
performed). -/
theorem C8_counterexample_classifiers_disagree :
    IikoClient.is_bar_item "кофе латте" "другое" = true ∧
    IikoServerClient.is_bar_group "другое" = false :=
  ⟨rfl, rfl⟩

/-- C8 amended: the two bar classifiers share the identical fixed bar-group
set, and whenever `IikoServerClient._is_bar_group` classifies a group as bar,
`IikoClient._is_bar_item` classifies any item of that group as bar as well
(the converse fails: `_is_bar_item` additionally applies keyword matching to
the group and to the dish name). -/
theorem C8_bar_group_implies_bar_item :
    IikoServerClient.BAR_GROUPS = IikoClient.BAR_GROUPS ∧
    ∀ name group : String,
      IikoServerClient.is_bar_group group = true →
        IikoClient.is_bar_item name group = true := by
  refine ⟨rfl, fun name group h => ?_⟩
  rw [is_bar_item_eq_or]
  unfold IikoServerClient.is_bar_group at h
  rw [show IikoServerClient.BAR_GROUPS = IikoClient.BAR_GROUPS from rfl] at h
  have hm : pyStrip (pyLower group) ∈ IikoClient.BAR_GROUPS := by simpa using h
  simp [hm]

theorem C8_bar_group_implies_bar_item_witness :
    IikoServerClient.is_bar_group "Бар" = true ∧
    IikoClient.is_bar_item "Мохито" "Бар" = true :=
  ⟨rfl, C8_bar_group_implies_bar_item.2 "Мохито" "Бар" rfl⟩

namespace IikoClient

/-- Catalog entry of `_get_product_map`: `{name, group, price, type}`. -/
structure ProductInfo where
  name : String
  group : String
  price : ℚ
  ptype : String

/-- Product map of `_get_product_map`: product id / code / sku / num →
catalog entry. -/
abbrev ProductMap := List (String × ProductInfo)

/-- Nested-envelope unwrap used throughout `IikoClient`:
`order_obj = order.get("order") or order`. -/
def order_obj (order : JVal) : JVal := pyOrJ (order.get "order") order

/-- Line items of an order: `order_obj.get("items", [])`. -/
def order_items (order : JVal) : List JVal := (order_obj order).getArr "items"

/-- Effective quantity of a line item:
`amount = self._safe_float(item.get("amount") or 1)`. -/
def item_amount (item : JVal) : ℚ :=
  safe_float (pyOrJ (item.get "amount") (.jnum 1))

/-- Monetary value of one line item, the price-resolution ladder of
`_analyze_orders`: cost if strictly positive, else resultSum if strictly
positive, else the direct sum field if strictly positive, else price times
amount when the price (not the product) is strictly positive, else 0. -/
def item_sum (item : JVal) : ℚ :=
  let amount := item_amount item
  let cost := safe_float (item.get "cost")
  let result_sum := safe_float (item.get "resultSum")
  let price := safe_float (item.get "price")
  let item_sum_direct := safe_float (item.get "sum")
  if 0 < cost then cost
  else if 0 < result_sum then result_sum
  else if 0 < item_sum_direct then item_sum_direct
  else if 0 < price then qmul price amount
  else 0

/-- Product id of a line item:
`item.get("productId") or product.get("id") or item.get("id", "")`,
rendered as the dict key it is used as. -/
def item_product_id (item : JVal) : String :=
  let product := pyOrJ (item.get "product") (.jobj [])
  (pyOrJ (item.get "productId")
    (pyOrJ (product.get "id") (item.getD "id" (.jstr "")))).asKey

/-- Dish display name of a line item:
`item.get("name") or product.get("name") or product_info.get("name")
 or item.get("productName") or "Неизвестно"`. -/
def item_dish_name (pm : ProductMap) (item : JVal) : String :=
  let product := pyOrJ (item.get "product") (.jobj [])
  let pinfo_name : JVal :=
    match assocFind pm (item_product_id item) with
    | some info => if info.name = "" then .jstr "" else .jstr info.name
    | none => .jnull
  (pyOrJ (item.get "name")
    (pyOrJ (product.get "name")
      (pyOrJ pinfo_name
        (pyOrJ (item.get "productName") (.jstr "Неизвестно"))))).asKey

/-- Dish group of a line item: `product_info.get("group", "Другое")` where
`product_info = product_map.get(product_id, {})`. -/
def item_dish_group (pm : ProductMap) (item : JVal) : String :=
  match assocFind pm (item_product_id item) with
  | some info => info.group
  | none => "Другое"

/-- Order-level sum fallback of `_analyze_orders` (applied when the items sum
to zero): first non-zero of `order_obj.sum`, `order_obj.resultSum`,
`order.sum`, `order.resultSum`, else 0.  Python `or` on floats selects the
first non-zero value. -/
def order_fallback_sum (order : JVal) : ℚ :=
  let oo := order_obj order
  let pick := fun (a b : ℚ) => if a = 0 then b else a
  pick (safe_float (oo.get "sum"))
    (pick (safe_float (oo.get "resultSum"))
      (pick (safe_float (order.get "sum"))
        (pick (safe_float (order.get "resultSum")) 0)))

/-- Waiter display name of an order, mirroring the `waiter / operator /
courier` chain and the nested name chain of `_analyze_orders`. -/
def order_waiter_name (order : JVal) : String :=
  let oo := order_obj order
  let waiter :=
    pyOrJ (oo.get "waiter")
      (pyOrJ (oo.get "operator")
        (pyOrJ (order.get "waiter")
          (pyOrJ (order.get "operator") (order.get "courier"))))
  match waiter with
  | .jobj fs =>
      if (JVal.jobj fs).truthy then
        (pyOrJ ((JVal.jobj fs).get "name")
          (pyOrJ ((JVal.jobj fs).get "firstName")
            (pyOrJ ((JVal.jobj fs).get "displayName") (.jstr "Неизвестно")))).asKey
      else "Не указан"
  | .jstr s => s
  | _ => "Не указан"

/-- Creation timestamp chain of `_analyze_orders`:
`order_obj.whenCreated or order_obj.createdAt or order.whenCreated or
order.get("completeBefore", "")`. -/
def order_created (order : JVal) : JVal :=
  let oo := order_obj order
  pyOrJ (oo.get "whenCreated")
    (pyOrJ (oo.get "createdAt")
      (pyOrJ (order.get "whenCreated") (order.getD "completeBefore" (.jstr ""))))

/-- Per-dish accumulator cell of `_analyze_orders`:
`{"qty": 0, "revenue": 0, "group": ""}`. -/
structure DishAgg where
  qty : ℚ
  revenue : ℚ
  group : String

/-- Per-waiter accumulator cell: `{"orders": 0, "revenue": 0}`. -/
structure WaiterAgg where
  orders : ℕ
  revenue : ℚ

/-- Accumulator state of the fold of `_analyze_orders` over the order list. -/
structure AnalyzeState where
  total_revenue : ℚ
  dish_sales : List (String × DishAgg)
  waiter_stats : List (String × WaiterAgg)
  hourly : List (String × ℕ)

/-- Body of the items loop of `_analyze_orders` for one line item: update the
per-dish accumulator (`qty += amount`, `revenue += item_sum`,
`group = dish_group`) and add the item sum to the running `order_sum`. -/
def items_step (pm : ProductMap) (p : List (String × DishAgg) × ℚ) (item : JVal) :
    List (String × DishAgg) × ℚ :=
  let amount := item_amount item
  let isum := item_sum item
  let name := item_dish_name pm item
  let grp := item_dish_group pm item
  (updateAssoc p.1 name ⟨0, 0, ""⟩
    (fun a => ⟨qadd a.qty amount, qadd a.revenue isum, grp⟩),
   qadd p.2 isum)

/-- Items-loop of one order: threads the per-dish map and the running
`order_sum` over the line items. -/
def analyze_items (pm : ProductMap) (items : List JVal)
    (ds0 : List (String × DishAgg)) : List (String × DishAgg) × ℚ :=
  items.foldl (items_step pm) (ds0, 0)

/-- One iteration of the order loop of `_analyze_orders`. -/
def analyze_step (pm : ProductMap) (st : AnalyzeState) (order : JVal) : AnalyzeState :=
  let (ds, items_sum) := analyze_items pm (order_items order) st.dish_sales
  let order_sum := if items_sum = 0 then order_fallback_sum order else items_sum
  let wname := order_waiter_name order
  let ws := updateAssoc st.waiter_stats wname ⟨0, 0⟩
    (fun a => ⟨a.orders + 1, qadd a.revenue order_sum⟩)
  let created := order_created order
  let hourly :=
    if created.truthy && decide (13 ≤ (JVal.asKey created).length) then
      updateAssoc st.hourly (strSlice (JVal.asKey created) 11 13) 0 (fun n => n + 1)
    else st.hourly
  { total_revenue := qadd st.total_revenue order_sum
    dish_sales := ds
    waiter_stats := ws
    hourly := hourly }

/-- Result record of `_analyze_orders`. -/
structure Analysis where
  total_revenue : ℚ
  total_orders : ℕ
  avg_check : ℚ
  dish_sales : List (String × DishAgg)
  waiter_stats : List (String × WaiterAgg)
  hourly : List (String × ℕ)

/-- Initial accumulator state of `_analyze_orders`. -/
def initState : AnalyzeState := ⟨0, [], [], []⟩

/-- Embedding of `IikoClient._analyze_orders`: fold the per-order step over
the order list, then derive the average check with the zero-orders guard. -/
def analyze_orders (pm : ProductMap) (orders : List JVal) : Analysis :=
  let st := orders.foldl (analyze_step pm) initState
  let total_orders := orders.length
  { total_revenue := st.total_revenue
    total_orders := total_orders
    avg_check :=
      if 0 < total_orders then qdiv st.total_revenue (total_orders : ℚ) else 0
    dish_sales := st.dish_sales
    waiter_stats := st.waiter_stats
    hourly := st.hourly }

/-- Result of `get_period_totals` / `get_period_totals_by_dates`. -/
structure PeriodTotals where
  revenue : ℚ
  orders : ℕ
  avg_check : ℚ

/-- Tail of `IikoClient.get_period_totals` after `_collect_all_orders`
returned `orders`: the zero record when no orders were found, else the
projections of the analysis. -/
def period_totals (pm : ProductMap) (orders : List JVal) : PeriodTotals :=
  if orders.isEmpty then ⟨0, 0, 0⟩
  else
    let a := analyze_orders pm orders
    ⟨a.total_revenue, a.total_orders, a.avg_check⟩

/-- Deleted-order test of the filter at the end of `_collect_all_orders`:
`(o.get("order") or o).get("isDeleted")` is truthy. -/
def order_is_deleted (o : JVal) : Bool := ((order_obj o).get "isDeleted").truthy

/-- Deleted-order filter of `_collect_all_orders`: keeps non-deleted orders
in order and counts the dropped ones. -/
def filter_deleted (all_orders : List JVal) : List JVal × ℕ :=
  all_orders.foldl
    (fun (p : List JVal × ℕ) o =>
      if order_is_deleted o then (p.1, p.2 + 1) else (p.1 ++ [o], p.2))
    ([], 0)

end IikoClient

/-- Second component of the items loop: the items sum threaded through the
fold, independent of the dish map. -/
def IikoClient.items_total (order : JVal) : ℚ :=
  (IikoClient.order_items order).foldl (fun s it => qadd s (IikoClient.item_sum it)) 0

theorem analyze_items_snd (pm : IikoClient.ProductMap) :
    ∀ (items : List JVal) (ds : List (String × IikoClient.DishAgg)) (s : ℚ),
      (items.foldl (IikoClient.items_step pm) (ds, s)).2 =
      items.foldl (fun s it => qadd s (IikoClient.item_sum it)) s
  | [], _, _ => rfl
  | item :: items, _ds, s => analyze_items_snd pm items _ (qadd s (IikoClient.item_sum item))

theorem analyze_items_eq_snd (pm : IikoClient.ProductMap) (order : JVal)
    (ds0 : List (String × IikoClient.DishAgg)) :
    (IikoClient.analyze_items pm (IikoClient.order_items order) ds0).2 =
      IikoClient.items_total order := by
  unfold IikoClient.analyze_items IikoClient.items_total
  exact analyze_items_snd pm (IikoClient.order_items order) ds0 0

theorem items_fold_fst (pm : IikoClient.ProductMap) :
    ∀ (items : List JVal) (ds : List (String × IikoClient.DishAgg)) (s1 s2 : ℚ),
      (items.foldl (IikoClient.items_step pm) (ds, s1)).1 =
        (items.foldl (IikoClient.items_step pm) (ds, s2)).1
  | [], _, _, _ => rfl
  | item :: items, _ds, s1, s2 =>
      items_fold_fst pm items _ (qadd s1 (IikoClient.item_sum item))
        (qadd s2 (IikoClient.item_sum item))

/-- Modelled from the claim wording only (for comparison with the code): the
first strictly positive value of a candidate list, `0` when none is
positive. -/
def first_positive : List ℚ → ℚ
  | [] => 0
  | q :: qs => if 0 < q then q else first_positive qs

/-- The four candidates the claim names, in the claim's order: cost,
resultSum, the direct sum field, price times amount. -/
def item_candidates (item : JVal) : List ℚ :=
  [safe_float (item.get "cost"), safe_float (item.get "resultSum"),
   safe_float (item.get "sum"),
   qmul (safe_float (item.get "price")) (IikoClient.item_amount item)]

/-- C2 counterexample: for the item `{"price": 10, "amount": -2}` no candidate
in {cost, resultSum, sum, price×amount} is strictly positive, so the claimed
rule resolves 0; the code guards the fourth branch by the price alone and
records price×amount = −20. -/
theorem C2_counterexample_item_value_not_first_positive :
    IikoClient.item_sum (JVal.jobj [("price", JVal.jnum 10), ("amount", JVal.jnum (-2))]) = -20 ∧
    first_positive (item_candidates
      (JVal.jobj [("price", JVal.jnum 10), ("amount", JVal.jnum (-2))])) = 0 ∧
    IikoClient.item_sum (JVal.jobj [("price", JVal.jnum 10), ("amount", JVal.jnum (-2))]) ≠
      first_positive (item_candidates
        (JVal.jobj [("price", JVal.jnum 10), ("amount", JVal.jnum (-2))])) := by
  refine ⟨by decide, by decide, by decide⟩

/-- C2 amended: the analyzer resolves an item value by trying cost, resultSum
and the direct sum field for strict positivity and then, when the price (not
the product price×amount) is strictly positive, taking price×amount, else 0;
whenever the item's effective amount is non-negative this agrees with the
first-strictly-positive-candidate rule of the claim.  When an order's items
sum to zero the order-level sum chain is used for the order's revenue
contribution.  Three orders resolving to 500, 300 (via resultSum after cost
resolves to 0) and 700 yield total revenue 1500 and average check 500. -/
theorem C2_item_value_resolution (pm : IikoClient.ProductMap)
    (st : IikoClient.AnalyzeState) (order item : JVal)
    (hamt : 0 ≤ IikoClient.item_amount item) :
    IikoClient.item_sum item = first_positive (item_candidates item) ∧
    (IikoClient.items_total order = 0 →
      (IikoClient.analyze_step pm st order).total_revenue =
        st.total_revenue + IikoClient.order_fallback_sum order) ∧
    (IikoClient.analyze_orders []
      [JVal.jobj [("items", JVal.jarr [JVal.jobj [("cost", JVal.jnum 500)]])],
       JVal.jobj [("items", JVal.jarr
         [JVal.jobj [("cost", JVal.jnum 0), ("resultSum", JVal.jnum 300)]])],
       JVal.jobj [("items", JVal.jarr [JVal.jobj [("cost", JVal.jnum 700)]])]]).total_revenue
      = 1500 ∧
    (IikoClient.analyze_orders []
      [JVal.jobj [("items", JVal.jarr [JVal.jobj [("cost", JVal.jnum 500)]])],
       JVal.jobj [("items", JVal.jarr
         [JVal.jobj [("cost", JVal.jnum 0), ("resultSum", JVal.jnum 300)]])],
       JVal.jobj [("items", JVal.jarr [JVal.jobj [("cost", JVal.jnum 700)]])]]).avg_check
      = 500 := by
  refine ⟨?_, ?_, by decide, by decide⟩
  · have hns : IikoClient.item_sum item =
        (if 0 < safe_float (item.get "cost") then safe_float (item.get "cost")
         else if 0 < safe_float (item.get "resultSum") then safe_float (item.get "resultSum")
         else if 0 < safe_float (item.get "sum") then safe_float (item.get "sum")
         else if 0 < safe_float (item.get "price") then
           qmul (safe_float (item.get "price")) (IikoClient.item_amount item)
         else 0) := rfl
    rw [hns]
    by_cases h1 : 0 < safe_float (item.get "cost")
    · simp [item_candidates, first_positive, h1]
    · by_cases h2 : 0 < safe_float (item.get "resultSum")
      · simp [item_candidates, first_positive, h1, h2]
      · by_cases h3 : 0 < safe_float (item.get "sum")
        · simp [item_candidates, first_positive, h1, h2, h3]
        · by_cases h4 : 0 < safe_float (item.get "price")
          · rcases lt_or_eq_of_le hamt with hlt | heq
            · have h5 : 0 < qmul (safe_float (item.get "price")) (IikoClient.item_amount item) := by
                rw [qmul_eq]; exact mul_pos h4 hlt
              simp [item_candidates, first_positive, h1, h2, h3, h4, h5]
            · have h5 : qmul (safe_float (item.get "price")) (IikoClient.item_amount item) = 0 := by
                rw [qmul_eq, ← heq, mul_zero]
              simp [item_candidates, first_positive, h1, h2, h3, h4, h5]
          · have h5 : ¬ 0 < qmul (safe_float (item.get "price")) (IikoClient.item_amount item) := by
              rw [qmul_eq]
              push_neg at h4 ⊢
              exact mul_nonpos_iff.mpr (Or.inr ⟨h4, hamt⟩)
            simp [item_candidates, first_positive, h1, h2, h3, h4, h5]
  · intro hz
    have h2 : (IikoClient.analyze_items pm (IikoClient.order_items order) st.dish_sales).2 = 0 := by
      rw [analyze_items_eq_snd pm order st.dish_sales]; exact hz
    unfold IikoClient.analyze_step
    rcases hp : IikoClient.analyze_items pm (IikoClient.order_items order) st.dish_sales with ⟨ds, isum⟩
    rw [hp] at h2
    simp only [hp]
    simp only [show isum = 0 from h2]
    simp [qadd_eq]

theorem C2_item_value_resolution_witness :
    IikoClient.item_sum (JVal.jobj [("cost", JVal.jnum 500)]) =
      first_positive (item_candidates (JVal.jobj [("cost", JVal.jnum 500)])) ∧
    (IikoClient.analyze_step [] IikoClient.initState
        (JVal.jobj [("sum", JVal.jnum 42)])).total_revenue =
      IikoClient.initState.total_revenue +
        IikoClient.order_fallback_sum (JVal.jobj [("sum", JVal.jnum 42)]) :=
  ⟨(C2_item_value_resolution [] IikoClient.initState (JVal.jobj [("sum", JVal.jnum 42)])
      (JVal.jobj [("cost", JVal.jnum 500)]) (by decide)).1,
   (C2_item_value_resolution [] IikoClient.initState (JVal.jobj [("sum", JVal.jnum 42)])
      (JVal.jobj [("cost", JVal.jnum 500)]) (by decide)).2.1 (by decide)⟩

/-- C4: in `_analyze_orders` and in the period-totals result, the average
check equals total revenue divided by total order count when the order count
is positive and equals 0 when the order count is 0; the division sits under
the positivity guard, so no division by zero is performed. -/
theorem C4_avg_check_division_guard (pm : IikoClient.ProductMap) (orders : List JVal) :
    ((IikoClient.analyze_orders pm orders).total_orders = 0 →
      (IikoClient.analyze_orders pm orders).avg_check = 0) ∧
    (0 < (IikoClient.analyze_orders pm orders).total_orders →
      (IikoClient.analyze_orders pm orders).avg_check =
        (IikoClient.analyze_orders pm orders).total_revenue /
          ((IikoClient.analyze_orders pm orders).total_orders : ℚ)) ∧
    ((IikoClient.period_totals pm orders).orders = 0 →
      (IikoClient.period_totals pm orders).avg_check = 0) ∧
    (0 < (IikoClient.period_totals pm orders).orders →
      (IikoClient.period_totals pm orders).avg_check =
        (IikoClient.period_totals pm orders).revenue /
          ((IikoClient.period_totals pm orders).orders : ℚ)) := by
  rcases orders with _ | ⟨o, os⟩
  · refine ⟨fun _ => rfl, fun h => absurd h (by simp [IikoClient.analyze_orders]), fun _ => rfl,
      fun h => absurd h (by simp [IikoClient.period_totals])⟩
  · constructor
    · intro h
      simp [IikoClient.analyze_orders] at h
    · constructor
      · intro h
        simp [IikoClient.analyze_orders, qdiv_eq]
      · constructor
        · intro h
          simp [IikoClient.period_totals, IikoClient.analyze_orders] at h
        · intro h
          simp [IikoClient.period_totals, IikoClient.analyze_orders, qdiv_eq]

theorem C4_avg_check_division_guard_witness :
    (IikoClient.analyze_orders [] ([] : List JVal)).avg_check = 0 ∧
    (IikoClient.analyze_orders []
        [JVal.jobj [("items", JVal.jarr [JVal.jobj [("cost", JVal.jnum 500)]])]]).avg_check =
      (IikoClient.analyze_orders []
        [JVal.jobj [("items", JVal.jarr [JVal.jobj [("cost", JVal.jnum 500)]])]]).total_revenue /
        ((IikoClient.analyze_orders []
          [JVal.jobj [("items", JVal.jarr [JVal.jobj [("cost", JVal.jnum 500)]])]]).total_orders : ℚ) :=
  ⟨(C4_avg_check_division_guard [] []).1 (by decide),
   (C4_avg_check_division_guard []
      [JVal.jobj [("items", JVal.jarr [JVal.jobj [("cost", JVal.jnum 500)]])]]).2.1 (by decide)⟩

namespace IikoClient

/-- Trace of the retry loop of `_fetch_orders_chunk` for one day.  The network
is abstracted as an oracle mapping the attempt index to its outcome; the
`await asyncio.sleep(wait)` calls and `self.token = None` assignments are
recorded as the `waits` list and the `token_clears` counter. -/
structure ChunkTrace where
  outcome : Except String (List JVal)
  attempts : ℕ
  waits : List ℕ
  token_clears : ℕ

/-- Body of the `for attempt in range(max_retries)` loop of
`_fetch_orders_chunk`: on success return the orders; on failure, when
attempts remain, wait `(attempt + 1) * 3` seconds and clear the token, else
re-raise. -/
def fetch_chunk_go (oracle : ℕ → Except String (List JVal)) :
    ℕ → ℕ → List ℕ → ℕ → ChunkTrace
  | 0, attempt, ws, tc => ⟨.error "exhausted", attempt, ws, tc⟩
  | remaining + 1, attempt, ws, tc =>
    match oracle attempt with
    | .ok orders => ⟨.ok orders, attempt + 1, ws, tc⟩
    | .error e =>
      if remaining = 0 then ⟨.error e, attempt + 1, ws, tc⟩
      else fetch_chunk_go oracle remaining (attempt + 1) (ws ++ [(attempt + 1) * 3]) (tc + 1)

/-- `max_retries = 3` of `_fetch_orders_chunk`. -/
def max_retries : ℕ := 3

/-- Embedding of `IikoClient._fetch_orders_chunk`: up to `max_retries`
attempts with backoff 3s then 6s, the auth token cleared before each retry,
the last failure re-raised. -/
def fetch_orders_chunk (oracle : ℕ → Except String (List JVal)) : ChunkTrace :=
  fetch_chunk_go oracle max_retries 0 [] 0

/-- Accumulated state of the per-day loop of `_collect_all_orders`. -/
structure CollectTrace where
  all_orders : List JVal
  methods_success : List String
  errors : List String

/-- One iteration of the day loop of `_collect_all_orders`: a successful day
extends the order list (and the success log when it returned any orders); a
day whose retries are exhausted appends an error entry and the loop
continues. -/
def collect_days_step (dayOracle : String → ℕ → Except String (List JVal))
    (st : CollectTrace) (day : String) : CollectTrace :=
  match (fetch_orders_chunk (dayOracle day)).outcome with
  | .ok chunk_orders =>
      { all_orders := st.all_orders ++ chunk_orders
        methods_success :=
          st.methods_success ++
            (if chunk_orders.isEmpty then []
             else [day ++ ": " ++ toString chunk_orders.length])
        errors := st.errors }
  | .error e => { st with errors := st.errors ++ [day ++ ": " ++ e] }

/-- The day loop of `_collect_all_orders` over the days of the requested
range. -/
def collect_days (dayOracle : String → ℕ → Except String (List JVal))
    (days : List String) : CollectTrace :=
  days.foldl (collect_days_step dayOracle) ⟨[], [], []⟩

/-- Diagnostics record `self._last_diag` as written by `_collect_all_orders`
for multi-day ranges. -/
structure LastDiag where
  methods_success : List String
  total_orders : ℕ
  deleted_orders : ℕ
  errors : List String
  error_count : ℕ
  days_total : ℕ
  days_ok : ℕ

/-- Embedding of `_collect_all_orders` for a multi-day range: run the day
loop, filter deleted orders, record the diagnostics. -/
def collect_all_orders_days (dayOracle : String → ℕ → Except String (List JVal))
    (days : List String) : List JVal × LastDiag :=
  let tr := collect_days dayOracle days
  let fd := filter_deleted tr.all_orders
  (fd.1,
   { methods_success := tr.methods_success
     total_orders := fd.1.length
     deleted_orders := fd.2
     errors := tr.errors
     error_count := tr.errors.length
     days_total := days.length
     days_ok := days.length - tr.errors.length })

end IikoClient

theorem fetch_orders_chunk_spec (oracle : ℕ → Except String (List JVal)) :
    (∃ o0, oracle 0 = .ok o0 ∧
      IikoClient.fetch_orders_chunk oracle = ⟨.ok o0, 1, [], 0⟩) ∨
    (∃ e0 o1, oracle 0 = .error e0 ∧ oracle 1 = .ok o1 ∧
      IikoClient.fetch_orders_chunk oracle = ⟨.ok o1, 2, [3], 1⟩) ∨
    (∃ e0 e1 o2, oracle 0 = .error e0 ∧ oracle 1 = .error e1 ∧ oracle 2 = .ok o2 ∧
      IikoClient.fetch_orders_chunk oracle = ⟨.ok o2, 3, [3, 6], 2⟩) ∨
    (∃ e0 e1 e2, oracle 0 = .error e0 ∧ oracle 1 = .error e1 ∧ oracle 2 = .error e2 ∧
      IikoClient.fetch_orders_chunk oracle = ⟨.error e2, 3, [3, 6], 2⟩) := by
  unfold IikoClient.fetch_orders_chunk IikoClient.max_retries
  rcases h0 : oracle 0 with e0 | o0
  · rcases h1 : oracle 1 with e1 | o1
    · rcases h2 : oracle 2 with e2 | o2
      · refine Or.inr (Or.inr (Or.inr ⟨e0, e1, e2, rfl, rfl, rfl, ?_⟩))
        simp [IikoClient.fetch_chunk_go, h0, h1, h2]
      · refine Or.inr (Or.inr (Or.inl ⟨e0, e1, o2, rfl, rfl, rfl, ?_⟩))
        simp [IikoClient.fetch_chunk_go, h0, h1, h2]
    · refine Or.inr (Or.inl ⟨e0, o1, rfl, rfl, ?_⟩)
      simp [IikoClient.fetch_chunk_go, h0, h1]
  · refine Or.inl ⟨o0, rfl, ?_⟩
    simp [IikoClient.fetch_chunk_go, h0]

theorem collect_days_from (dayOracle : String → ℕ → Except String (List JVal)) :
    ∀ (days : List String) (s : IikoClient.CollectTrace),
      days.foldl (IikoClient.collect_days_step dayOracle) s =
        ⟨s.all_orders ++ (IikoClient.collect_days dayOracle days).all_orders,
         s.methods_success ++ (IikoClient.collect_days dayOracle days).methods_success,
         s.errors ++ (IikoClient.collect_days dayOracle days).errors⟩ := by
  intro days
  induction days with
  | nil => intro s; simp [IikoClient.collect_days]
  | cons d rest ih =>
    intro s
    have hstep : ∀ t : IikoClient.CollectTrace,
        IikoClient.collect_days_step dayOracle t d =
          ⟨t.all_orders ++ (IikoClient.collect_days_step dayOracle ⟨[], [], []⟩ d).all_orders,
           t.methods_success ++
             (IikoClient.collect_days_step dayOracle ⟨[], [], []⟩ d).methods_success,
           t.errors ++ (IikoClient.collect_days_step dayOracle ⟨[], [], []⟩ d).errors⟩ := by
      intro t
      unfold IikoClient.collect_days_step
      rcases (IikoClient.fetch_orders_chunk (dayOracle d)).outcome with e | c <;> simp
    calc (d :: rest).foldl (IikoClient.collect_days_step dayOracle) s
        = rest.foldl (IikoClient.collect_days_step dayOracle)
            (IikoClient.collect_days_step dayOracle s d) := by rw [List.foldl_cons]
      _ = _ := by
          rw [ih (IikoClient.collect_days_step dayOracle s d)]
          show _ = (⟨_, _, _⟩ : IikoClient.CollectTrace)
          rw [show IikoClient.collect_days dayOracle (d :: rest) =
                rest.foldl (IikoClient.collect_days_step dayOracle)
                  (IikoClient.collect_days_step dayOracle ⟨[], [], []⟩ d) from rfl,
              ih (IikoClient.collect_days_step dayOracle ⟨[], [], []⟩ d)]
          rw [hstep s]
          simp [IikoClient.collect_days]

/-- C6: for a multi-day range, each daily request is attempted at most 3
times; the waits before retries are 3 seconds then 6 seconds (the recorded
waits are exactly the first `attempts − 1` entries of `[3, 6]`) and the auth
token is cleared once before each retry; a day whose three attempts are all
exhausted contributes one error entry (recorded in the diagnostics), while
every other day of the range is still processed: the orders, success log and
errors of the whole range decompose into the contributions of the days before
the failing day, the failing day, and the days after it. -/
theorem C6_daily_retry_and_partial_failure
    (dayOracle : String → ℕ → Except String (List JVal))
    (pre post : List String) (day : String)
    (_hspan : 2 ≤ (pre ++ day :: post).length)
    (hfail : ∀ i < 3, ∃ e, dayOracle day i = Except.error e) :
    (∀ d : String,
      (IikoClient.fetch_orders_chunk (dayOracle d)).attempts ≤ 3 ∧
      (IikoClient.fetch_orders_chunk (dayOracle d)).waits =
        [3, 6].take ((IikoClient.fetch_orders_chunk (dayOracle d)).attempts - 1) ∧
      (IikoClient.fetch_orders_chunk (dayOracle d)).token_clears =
        (IikoClient.fetch_orders_chunk (dayOracle d)).attempts - 1) ∧
    (∃ e, IikoClient.collect_days dayOracle (pre ++ day :: post) =
      ⟨(IikoClient.collect_days dayOracle pre).all_orders ++
         (IikoClient.collect_days dayOracle post).all_orders,
       (IikoClient.collect_days dayOracle pre).methods_success ++
         (IikoClient.collect_days dayOracle post).methods_success,
       (IikoClient.collect_days dayOracle pre).errors ++
         ((day ++ ": " ++ e) :: (IikoClient.collect_days dayOracle post).errors)⟩) ∧
    (IikoClient.collect_all_orders_days dayOracle (pre ++ day :: post)).2.errors =
      (IikoClient.collect_days dayOracle (pre ++ day :: post)).errors ∧
    (IikoClient.collect_all_orders_days dayOracle (pre ++ day :: post)).2.days_total =
      (pre ++ day :: post).length := by
  refine ⟨?_, ?_, rfl, rfl⟩
  · intro d
    rcases fetch_orders_chunk_spec (dayOracle d) with
      ⟨o0, _, hc⟩ | ⟨e0, o1, _, _, hc⟩ | ⟨e0, e1, o2, _, _, _, hc⟩ | ⟨e0, e1, e2, _, _, _, hc⟩ <;>
      rw [hc] <;> exact ⟨by norm_num, rfl, rfl⟩
  · have hchunk : ∃ e, IikoClient.fetch_orders_chunk (dayOracle day) =
        ⟨.error e, 3, [3, 6], 2⟩ := by
      rcases fetch_orders_chunk_spec (dayOracle day) with
        ⟨o0, h0, hc⟩ | ⟨e0, o1, h0, h1, hc⟩ | ⟨e0, e1, o2, h0, h1, h2, hc⟩ |
        ⟨e0, e1, e2, h0, h1, h2, hc⟩
      · obtain ⟨e, he⟩ := hfail 0 (by norm_num)
        rw [h0] at he; exact absurd he (by simp)
      · obtain ⟨e, he⟩ := hfail 1 (by norm_num)
        rw [h1] at he; exact absurd he (by simp)
      · obtain ⟨e, he⟩ := hfail 2 (by norm_num)
        rw [h2] at he; exact absurd he (by simp)
      · exact ⟨e2, hc⟩
    obtain ⟨e, hc⟩ := hchunk
    refine ⟨e, ?_⟩
    have h1 : IikoClient.collect_days dayOracle (pre ++ day :: post) =
        (day :: post).foldl (IikoClient.collect_days_step dayOracle)
          (IikoClient.collect_days dayOracle pre) := by
      unfold IikoClient.collect_days
      rw [List.foldl_append]
    rw [h1, List.foldl_cons]
    have hstep : IikoClient.collect_days_step dayOracle
        (IikoClient.collect_days dayOracle pre) day =
        ⟨(IikoClient.collect_days dayOracle pre).all_orders,
         (IikoClient.collect_days dayOracle pre).methods_success,
         (IikoClient.collect_days dayOracle pre).errors ++ [day ++ ": " ++ e]⟩ := by
      unfold IikoClient.collect_days_step
      rw [hc]
    rw [hstep, collect_days_from dayOracle post]
    simp

/-- Network oracle used to exercise the day loop: the middle day always
fails, the surrounding days succeed. -/
def c6_oracle : String → ℕ → Except String (List JVal) :=
  fun d _ =>
    if d = "2024-01-02" then .error "boom"
    else .ok [JVal.jobj [("sum", JVal.jnum 1)]]

theorem C6_daily_retry_and_partial_failure_witness :
    ∃ e, IikoClient.collect_days c6_oracle
        (["2024-01-01"] ++ "2024-01-02" :: ["2024-01-03"]) =
      ⟨(IikoClient.collect_days c6_oracle ["2024-01-01"]).all_orders ++
         (IikoClient.collect_days c6_oracle ["2024-01-03"]).all_orders,
       (IikoClient.collect_days c6_oracle ["2024-01-01"]).methods_success ++
         (IikoClient.collect_days c6_oracle ["2024-01-03"]).methods_success,
       (IikoClient.collect_days c6_oracle ["2024-01-01"]).errors ++
         (("2024-01-02" ++ ": " ++ e) ::
           (IikoClient.collect_days c6_oracle ["2024-01-03"]).errors)⟩ :=
  (C6_daily_retry_and_partial_failure c6_oracle ["2024-01-01"] ["2024-01-03"] "2024-01-02"
    (by decide) (fun _ _ => ⟨"boom", rfl⟩)).2.1

theorem filter_deleted_from (l : List JVal) :
    ∀ (acc : List JVal) (n : ℕ),
      l.foldl
        (fun (p : List JVal × ℕ) o =>
          if IikoClient.order_is_deleted o then (p.1, p.2 + 1) else (p.1 ++ [o], p.2))
        (acc, n) =
      (acc ++ l.filter (fun o => !IikoClient.order_is_deleted o),
       n + l.countP IikoClient.order_is_deleted) := by
  induction l with
  | nil => intro acc n; simp
  | cons o rest ih =>
    intro acc n
    rcases hdel : IikoClient.order_is_deleted o with _ | _
    · rw [List.foldl_cons, if_neg (by simp [hdel]), ih]
      simp [List.filter_cons, List.countP_cons, hdel]
    · rw [List.foldl_cons, if_pos (by simp [hdel]), ih]
      simp [List.filter_cons, List.countP_cons, hdel]
      omega

theorem filter_deleted_eq (l : List JVal) :
    IikoClient.filter_deleted l =
      (l.filter (fun o => !IikoClient.order_is_deleted o),
       l.countP IikoClient.order_is_deleted) := by
  unfold IikoClient.filter_deleted
  rw [filter_deleted_from l [] 0]
  simp

/-- C3 counterexample: an envelope marked `isDeleted: true` that carries a
truthy nested order object (itself not marked deleted) survives the filter of
`_collect_all_orders`, because the code inspects `isDeleted` only on
`o.get("order") or o`. -/
theorem C3_counterexample_deleted_envelope_kept :
    ((JVal.jobj [("isDeleted", JVal.jbool true),
        ("order", JVal.jobj [("items", JVal.jarr [])])]).get "isDeleted").truthy = true ∧
    (IikoClient.filter_deleted [JVal.jobj [("isDeleted", JVal.jbool true),
        ("order", JVal.jobj [("items", JVal.jarr [])])]]).1 =
      [JVal.jobj [("isDeleted", JVal.jbool true),
        ("order", JVal.jobj [("items", JVal.jarr [])])]] ∧
    (IikoClient.filter_deleted [JVal.jobj [("isDeleted", JVal.jbool true),
        ("order", JVal.jobj [("items", JVal.jarr [])])]]).2 = 0 :=
  ⟨rfl, rfl, rfl⟩

/-- C3 amended: `_collect_all_orders` removes exactly the orders whose
effective order object — the nested `order` value when it is truthy,
otherwise the envelope — has `isDeleted` truthy; the returned list (the only
list `_analyze_orders` is fed) contains no such order, and the diagnostics
record the count of removed orders.  An `isDeleted` flag sitting on the
envelope of a truthy nested order is not honoured. -/
theorem C3_deleted_orders_filtered (all_orders : List JVal)
    (dayOracle : String → ℕ → Except String (List JVal)) (days : List String) :
    (IikoClient.filter_deleted all_orders).1 =
      all_orders.filter (fun o => !IikoClient.order_is_deleted o) ∧
    (∀ o ∈ (IikoClient.filter_deleted all_orders).1,
      IikoClient.order_is_deleted o = false) ∧
    (IikoClient.filter_deleted all_orders).2 =
      all_orders.countP IikoClient.order_is_deleted ∧
    (∀ o ∈ (IikoClient.collect_all_orders_days dayOracle days).1,
      IikoClient.order_is_deleted o = false) ∧
    (IikoClient.collect_all_orders_days dayOracle days).2.deleted_orders =
      (IikoClient.collect_days dayOracle days).all_orders.countP
        IikoClient.order_is_deleted := by
  refine ⟨(congrArg Prod.fst (filter_deleted_eq all_orders)), ?_, ?_, ?_, ?_⟩
  · intro o ho
    rw [filter_deleted_eq all_orders] at ho
    simpa using (List.of_mem_filter ho)
  · exact congrArg Prod.snd (filter_deleted_eq all_orders)
  · intro o ho
    have h1 : (IikoClient.collect_all_orders_days dayOracle days).1 =
        (IikoClient.filter_deleted
          (IikoClient.collect_days dayOracle days).all_orders).1 := rfl
    rw [h1, filter_deleted_eq] at ho
    simpa using (List.of_mem_filter ho)
  · exact congrArg Prod.snd
      (filter_deleted_eq (IikoClient.collect_days dayOracle days).all_orders)

namespace IikoClient

/-- Per-dish quantity read off an accumulator map (0 when absent, as the
`defaultdict` default). -/
def dq (m : List (String × DishAgg)) (k : String) : ℚ :=
  ((assocFind m k).map DishAgg.qty).getD 0

/-- Per-dish revenue read off an accumulator map. -/
def dr (m : List (String × DishAgg)) (k : String) : ℚ :=
  ((assocFind m k).map DishAgg.revenue).getD 0

/-- Per-waiter order count read off an accumulator map. -/
def wo (m : List (String × WaiterAgg)) (k : String) : ℕ :=
  ((assocFind m k).map WaiterAgg.orders).getD 0

/-- Per-waiter revenue read off an accumulator map. -/
def wr (m : List (String × WaiterAgg)) (k : String) : ℚ :=
  ((assocFind m k).map WaiterAgg.revenue).getD 0

/-- Per-hour order count read off an accumulator map. -/
def hc (m : List (String × ℕ)) (k : String) : ℕ :=
  (assocFind m k).getD 0

/-- Pointwise order on accumulator states: every accumulator value of the
first state is at most the corresponding value of the second. -/
def stateLe (s t : AnalyzeState) : Prop :=
  s.total_revenue ≤ t.total_revenue ∧
  (∀ k, dq s.dish_sales k ≤ dq t.dish_sales k) ∧
  (∀ k, dr s.dish_sales k ≤ dr t.dish_sales k) ∧
  (∀ k, wo s.waiter_stats k ≤ wo t.waiter_stats k) ∧
  (∀ k, wr s.waiter_stats k ≤ wr t.waiter_stats k) ∧
  (∀ k, hc s.hourly k ≤ hc t.hourly k)

/-- All rational accumulator values of a state are non-negative (the ℕ-valued
counts are non-negative by type). -/
def stateNonneg (s : AnalyzeState) : Prop :=
  0 ≤ s.total_revenue ∧
  (∀ k, 0 ≤ dq s.dish_sales k) ∧
  (∀ k, 0 ≤ dr s.dish_sales k) ∧
  (∀ k, 0 ≤ wr s.waiter_stats k)

/-- Well-formedness of an input order for the monotonicity claim: every line
item has a non-negative effective amount and the order-level fallback sum is
non-negative. -/
def order_nonneg (order : JVal) : Prop :=
  (∀ item ∈ order_items order, 0 ≤ item_amount item) ∧
  0 ≤ order_fallback_sum order

/-- The fold of `_analyze_orders` over an order list, from the initial
state. -/
def analyze_run (pm : ProductMap) (orders : List JVal) : AnalyzeState :=
  orders.foldl (analyze_step pm) initState

end IikoClient

theorem stateLe_refl (s : IikoClient.AnalyzeState) : IikoClient.stateLe s s :=
  ⟨le_refl _, fun _ => le_refl _, fun _ => le_refl _, fun _ => le_refl _,
   fun _ => le_refl _, fun _ => le_refl _⟩

theorem stateLe_trans {s t u : IikoClient.AnalyzeState}
    (h1 : IikoClient.stateLe s t) (h2 : IikoClient.stateLe t u) :
    IikoClient.stateLe s u :=
  ⟨le_trans h1.1 h2.1,
   fun k => le_trans (h1.2.1 k) (h2.2.1 k),
   fun k => le_trans (h1.2.2.1 k) (h2.2.2.1 k),
   fun k => le_trans (h1.2.2.2.1 k) (h2.2.2.2.1 k),
   fun k => le_trans (h1.2.2.2.2.1 k) (h2.2.2.2.2.1 k),
   fun k => le_trans (h1.2.2.2.2.2 k) (h2.2.2.2.2.2 k)⟩

theorem assocFind_updateAssoc {α : Type} (m : List (String × α)) (k k2 : String)
    (d : α) (f : α → α) :
    assocFind (updateAssoc m k d f) k2 =
      if k = k2 then some (f ((assocFind m k).getD d)) else assocFind m k2 := by
  induction m with
  | nil =>
    simp only [updateAssoc, assocFind]
    split <;> simp_all [assocFind]
  | cons p rest ih =>
    obtain ⟨k0, v⟩ := p
    simp only [updateAssoc]
    by_cases h0 : k0 = k
    · subst h0
      simp only [if_pos rfl, assocFind]
      by_cases h2 : k0 = k2
      · subst h2; simp [assocFind]
      · simp [assocFind, h2, if_neg h2]
    · simp only [if_neg h0, assocFind]
      by_cases h2 : k0 = k2
      · subst h2
        have hk : ¬ k = k0 := fun hh => h0 hh.symm
        simp [assocFind, if_neg hk, if_neg h0]
      · simp [assocFind, if_neg h0, if_neg h2, ih]

theorem item_sum_ite (item : JVal) :
    IikoClient.item_sum item =
      (if 0 < safe_float (item.get "cost") then safe_float (item.get "cost")
       else if 0 < safe_float (item.get "resultSum") then safe_float (item.get "resultSum")
       else if 0 < safe_float (item.get "sum") then safe_float (item.get "sum")
       else if 0 < safe_float (item.get "price") then
         qmul (safe_float (item.get "price")) (IikoClient.item_amount item)
       else 0) := rfl

theorem item_sum_nonneg (item : JVal) (h : 0 ≤ IikoClient.item_amount item) :
    0 ≤ IikoClient.item_sum item := by
  rw [item_sum_ite]
  split
  · rename_i h1; exact le_of_lt h1
  · split
    · rename_i h2; exact le_of_lt h2
    · split
      · rename_i h3; exact le_of_lt h3
      · split
        · rename_i h4
          rw [qmul_eq]
          exact mul_nonneg (le_of_lt h4) h
        · exact le_refl 0

theorem dq_updateAssoc (m : List (String × IikoClient.DishAgg)) (name k : String)
    (amount isum : ℚ) (grp : String) :
    IikoClient.dq (updateAssoc m name ⟨0, 0, ""⟩
        (fun a => ⟨qadd a.qty amount, qadd a.revenue isum, grp⟩)) k =
      if name = k then IikoClient.dq m k + amount else IikoClient.dq m k := by
  unfold IikoClient.dq
  rw [assocFind_updateAssoc]
  by_cases h : name = k
  · subst h
    simp only [if_pos rfl, Option.map_some, Option.getD_some, qadd_eq]
    rcases assocFind m name with _ | a <;> simp
  · simp [if_neg h]

theorem dr_updateAssoc (m : List (String × IikoClient.DishAgg)) (name k : String)
    (amount isum : ℚ) (grp : String) :
    IikoClient.dr (updateAssoc m name ⟨0, 0, ""⟩
        (fun a => ⟨qadd a.qty amount, qadd a.revenue isum, grp⟩)) k =
      if name = k then IikoClient.dr m k + isum else IikoClient.dr m k := by
  unfold IikoClient.dr
  rw [assocFind_updateAssoc]
  by_cases h : name = k
  · subst h
    simp only [if_pos rfl, Option.map_some, Option.getD_some, qadd_eq]
    rcases assocFind m name with _ | a <;> simp
  · simp [if_neg h]

theorem wo_updateAssoc (m : List (String × IikoClient.WaiterAgg)) (name k : String)
    (osum : ℚ) :
    IikoClient.wo (updateAssoc m name ⟨0, 0⟩
        (fun a => ⟨a.orders + 1, qadd a.revenue osum⟩)) k =
      if name = k then IikoClient.wo m k + 1 else IikoClient.wo m k := by
  unfold IikoClient.wo
  rw [assocFind_updateAssoc]
  by_cases h : name = k
  · subst h
    simp only [if_pos rfl, Option.map_some, Option.getD_some]
    rcases assocFind m name with _ | a <;> simp
  · simp [if_neg h]

theorem wr_updateAssoc (m : List (String × IikoClient.WaiterAgg)) (name k : String)
    (osum : ℚ) :
    IikoClient.wr (updateAssoc m name ⟨0, 0⟩
        (fun a => ⟨a.orders + 1, qadd a.revenue osum⟩)) k =
      if name = k then IikoClient.wr m k + osum else IikoClient.wr m k := by
  unfold IikoClient.wr
  rw [assocFind_updateAssoc]
  by_cases h : name = k
  · subst h
    simp only [if_pos rfl, Option.map_some, Option.getD_some, qadd_eq]
    rcases assocFind m name with _ | a <;> simp
  · simp [if_neg h]

theorem hc_updateAssoc (m : List (String × ℕ)) (name k : String) :
    IikoClient.hc (updateAssoc m name 0 (fun n => n + 1)) k =
      if name = k then IikoClient.hc m k + 1 else IikoClient.hc m k := by
  unfold IikoClient.hc
  rw [assocFind_updateAssoc]
  by_cases h : name = k
  · subst h
    simp only [if_pos rfl, Option.getD_some]
    rcases assocFind m name with _ | a <;> simp
  · simp [if_neg h]


theorem analyze_items_cons_fst (pm : IikoClient.ProductMap) (it : JVal)
    (rest : List JVal) (ds : List (String × IikoClient.DishAgg)) :
    (IikoClient.analyze_items pm (it :: rest) ds).1 =
      (IikoClient.analyze_items pm rest
        (updateAssoc ds (IikoClient.item_dish_name pm it) ⟨0, 0, ""⟩
          (fun a => ⟨qadd a.qty (IikoClient.item_amount it),
                     qadd a.revenue (IikoClient.item_sum it),
                     IikoClient.item_dish_group pm it⟩))).1 := by
  unfold IikoClient.analyze_items
  rw [List.foldl_cons]
  exact items_fold_fst pm rest _ _ 0

theorem analyze_items_dish_mono (pm : IikoClient.ProductMap) :
    ∀ (items : List JVal), (∀ it ∈ items, 0 ≤ IikoClient.item_amount it) →
      ∀ (ds : List (String × IikoClient.DishAgg)) (k : String),
        IikoClient.dq ds k ≤ IikoClient.dq (IikoClient.analyze_items pm items ds).1 k ∧
        IikoClient.dr ds k ≤ IikoClient.dr (IikoClient.analyze_items pm items ds).1 k := by
  intro items
  induction items with
  | nil => intro _ ds k; exact ⟨le_refl _, le_refl _⟩
  | cons it rest ih =>
    intro h ds k
    have hit : 0 ≤ IikoClient.item_amount it := h it (by simp)
    have hsum : 0 ≤ IikoClient.item_sum it := item_sum_nonneg it hit
    have hrest : ∀ x ∈ rest, 0 ≤ IikoClient.item_amount x :=
      fun x hx => h x (by simp [hx])
    rw [analyze_items_cons_fst pm it rest ds]
    set upd := updateAssoc ds (IikoClient.item_dish_name pm it) ⟨0, 0, ""⟩
      (fun a => ⟨qadd a.qty (IikoClient.item_amount it),
                 qadd a.revenue (IikoClient.item_sum it),
                 IikoClient.item_dish_group pm it⟩) with hupd
    have h1 : IikoClient.dq ds k ≤ IikoClient.dq upd k := by
      rw [hupd, dq_updateAssoc]
      split
      · linarith
      · exact le_refl _
    have h2 : IikoClient.dr ds k ≤ IikoClient.dr upd k := by
      rw [hupd, dr_updateAssoc]
      split
      · linarith
      · exact le_refl _
    obtain ⟨h3, h4⟩ := ih hrest upd k
    exact ⟨le_trans h1 h3, le_trans h2 h4⟩

theorem items_total_nonneg_from (l : List JVal) :
    ∀ s : ℚ, (∀ it ∈ l, 0 ≤ IikoClient.item_sum it) →
      s ≤ l.foldl (fun s it => qadd s (IikoClient.item_sum it)) s := by
  induction l with
  | nil => intro s _; exact le_refl s
  | cons it rest ih =>
    intro s h
    rw [List.foldl_cons]
    have h1 : s ≤ qadd s (IikoClient.item_sum it) := by
      rw [qadd_eq]
      have := h it (by simp)
      linarith
    exact le_trans h1 (ih _ (fun x hx => h x (by simp [hx])))

theorem items_total_nonneg (order : JVal)
    (h : ∀ it ∈ IikoClient.order_items order, 0 ≤ IikoClient.item_amount it) :
    0 ≤ IikoClient.items_total order := by
  unfold IikoClient.items_total
  exact items_total_nonneg_from (IikoClient.order_items order) 0
    (fun it hit => item_sum_nonneg it (h it hit))

/-- Revenue contribution of one order in `_analyze_orders`: the items sum,
or the order-level fallback chain when the items sum is zero. -/
def IikoClient.order_sum_of (order : JVal) : ℚ :=
  if IikoClient.items_total order = 0 then IikoClient.order_fallback_sum order
  else IikoClient.items_total order

theorem analyze_step_eq (pm : IikoClient.ProductMap) (st : IikoClient.AnalyzeState)
    (order : JVal) :
    IikoClient.analyze_step pm st order =
      { total_revenue := qadd st.total_revenue (IikoClient.order_sum_of order)
        dish_sales :=
          (IikoClient.analyze_items pm (IikoClient.order_items order) st.dish_sales).1
        waiter_stats :=
          updateAssoc st.waiter_stats (IikoClient.order_waiter_name order) ⟨0, 0⟩
            (fun a => ⟨a.orders + 1, qadd a.revenue (IikoClient.order_sum_of order)⟩)
        hourly :=
          if (IikoClient.order_created order).truthy &&
              decide (13 ≤ (JVal.asKey (IikoClient.order_created order)).length) then
            updateAssoc st.hourly
              (strSlice (JVal.asKey (IikoClient.order_created order)) 11 13) 0
              (fun n => n + 1)
          else st.hourly } := by
  unfold IikoClient.analyze_step
  rcases hp : IikoClient.analyze_items pm (IikoClient.order_items order) st.dish_sales
    with ⟨ds, isum⟩
  have hsnd : isum = IikoClient.items_total order := by
    rw [← analyze_items_eq_snd pm order st.dish_sales, hp]
  have hfst : ds = (IikoClient.analyze_items pm (IikoClient.order_items order) st.dish_sales).1 := by
    rw [hp]
  subst hsnd
  subst hfst
  simp only [IikoClient.order_sum_of]

theorem order_sum_of_nonneg (order : JVal) (h : IikoClient.order_nonneg order) :
    0 ≤ IikoClient.order_sum_of order := by
  unfold IikoClient.order_sum_of
  split
  · exact h.2
  · exact items_total_nonneg order h.1

theorem analyze_step_mono (pm : IikoClient.ProductMap) (st : IikoClient.AnalyzeState)
    (order : JVal) (h : IikoClient.order_nonneg order) :
    IikoClient.stateLe st (IikoClient.analyze_step pm st order) := by
  have hosum : 0 ≤ IikoClient.order_sum_of order := order_sum_of_nonneg order h
  rw [analyze_step_eq]
  refine ⟨?_, ?_, ?_, ?_, ?_, ?_⟩
  · show st.total_revenue ≤ qadd st.total_revenue (IikoClient.order_sum_of order)
    rw [qadd_eq]; linarith
  · intro k
    exact (analyze_items_dish_mono pm (IikoClient.order_items order) h.1 st.dish_sales k).1
  · intro k
    exact (analyze_items_dish_mono pm (IikoClient.order_items order) h.1 st.dish_sales k).2
  · intro k
    show IikoClient.wo st.waiter_stats k ≤ IikoClient.wo (updateAssoc _ _ _ _) k
    rw [wo_updateAssoc]
    split
    · omega
    · exact le_refl _
  · intro k
    show IikoClient.wr st.waiter_stats k ≤ IikoClient.wr (updateAssoc _ _ _ _) k
    rw [wr_updateAssoc]
    split
    · linarith
    · exact le_refl _
  · intro k
    show IikoClient.hc st.hourly k ≤ IikoClient.hc _ k
    split
    · rw [hc_updateAssoc]
      split
      · omega
      · exact le_refl _
    · exact le_refl _

theorem analyze_fold_mono (pm : IikoClient.ProductMap) :
    ∀ (l : List JVal) (st : IikoClient.AnalyzeState),
      (∀ o ∈ l, IikoClient.order_nonneg o) →
      IikoClient.stateLe st (l.foldl (IikoClient.analyze_step pm) st) := by
  intro l
  induction l with
  | nil => intro st _; exact stateLe_refl st
  | cons o rest ih =>
    intro st h
    rw [List.foldl_cons]
    exact stateLe_trans (analyze_step_mono pm st o (h o (by simp)))
      (ih _ (fun x hx => h x (by simp [hx])))

/-- C9 counterexample: for the single order whose only item is
`{"price": 10, "amount": -2}`, the total-revenue accumulator of
`_analyze_orders` ends at −20: it is negative, and it decreased from the
initial 0 across the iteration. -/
theorem C9_counterexample_negative_accumulator :
    (IikoClient.analyze_orders []
      [JVal.jobj [("items", JVal.jarr
        [JVal.jobj [("price", JVal.jnum 10), ("amount", JVal.jnum (-2))]])]]).total_revenue
      = -20 ∧
    (IikoClient.analyze_orders []
      [JVal.jobj [("items", JVal.jarr
        [JVal.jobj [("price", JVal.jnum 10), ("amount", JVal.jnum (-2))]])]]).total_revenue <
      (IikoClient.analyze_orders [] ([] : List JVal)).total_revenue :=
  ⟨by decide, by decide⟩

/-- C9 amended: provided every order of the input list is well-formed — every
line item has a non-negative effective amount and the order-level fallback
sum is non-negative — every accumulator of the fold of `_analyze_orders`
(per-dish qty and revenue, per-waiter order count and revenue, per-hour
counts, total revenue) is non-negative after any prefix of the iteration and
monotonically non-decreasing from any prefix to any longer prefix.  Without
the non-negativity proviso the invariant fails (negative amounts flow into
the accumulators). -/
theorem C9_accumulators_monotone_nonneg (pm : IikoClient.ProductMap)
    (pre post : List JVal)
    (h : ∀ o ∈ pre ++ post, IikoClient.order_nonneg o) :
    IikoClient.stateNonneg (IikoClient.analyze_run pm pre) ∧
    IikoClient.stateLe (IikoClient.analyze_run pm pre)
      (IikoClient.analyze_run pm (pre ++ post)) ∧
    (IikoClient.analyze_orders pm (pre ++ post)).total_revenue =
      (IikoClient.analyze_run pm (pre ++ post)).total_revenue ∧
    (IikoClient.analyze_orders pm (pre ++ post)).dish_sales =
      (IikoClient.analyze_run pm (pre ++ post)).dish_sales := by
  have hpre : ∀ o ∈ pre, IikoClient.order_nonneg o :=
    fun o ho => h o (by simp [ho])
  have hpost : ∀ o ∈ post, IikoClient.order_nonneg o :=
    fun o ho => h o (by simp [ho])
  have hinit : IikoClient.stateLe IikoClient.initState (IikoClient.analyze_run pm pre) :=
    analyze_fold_mono pm pre IikoClient.initState hpre
  refine ⟨⟨hinit.1, fun k => hinit.2.1 k, fun k => hinit.2.2.1 k,
      fun k => hinit.2.2.2.2.1 k⟩, ?_, rfl, rfl⟩
  have happ : IikoClient.analyze_run pm (pre ++ post) =
      post.foldl (IikoClient.analyze_step pm) (IikoClient.analyze_run pm pre) := by
    unfold IikoClient.analyze_run
    rw [List.foldl_append]
  rw [happ]
  exact analyze_fold_mono pm post (IikoClient.analyze_run pm pre) hpost

instance (o : JVal) : Decidable (IikoClient.order_nonneg o) :=
  inferInstanceAs (Decidable
    ((∀ item ∈ IikoClient.order_items o, 0 ≤ IikoClient.item_amount item) ∧
      0 ≤ IikoClient.order_fallback_sum o))

theorem C9_accumulators_monotone_nonneg_witness :
    IikoClient.stateNonneg (IikoClient.analyze_run []
      [JVal.jobj [("items", JVal.jarr [JVal.jobj [("cost", JVal.jnum 500)]])]]) ∧
    IikoClient.stateLe
      (IikoClient.analyze_run []
        [JVal.jobj [("items", JVal.jarr [JVal.jobj [("cost", JVal.jnum 500)]])]])
      (IikoClient.analyze_run []
        ([JVal.jobj [("items", JVal.jarr [JVal.jobj [("cost", JVal.jnum 500)]])]] ++
         [JVal.jobj [("sum", JVal.jnum 300)]])) :=
  ⟨(C9_accumulators_monotone_nonneg []
      [JVal.jobj [("items", JVal.jarr [JVal.jobj [("cost", JVal.jnum 500)]])]]
      [JVal.jobj [("sum", JVal.jnum 300)]] (by decide)).1,
   (C9_accumulators_monotone_nonneg []
      [JVal.jobj [("items", JVal.jarr [JVal.jobj [("cost", JVal.jnum 500)]])]]
      [JVal.jobj [("sum", JVal.jnum 300)]] (by decide)).2.1⟩

namespace IikoServerClient

/-- Parsed XML element as `xml.etree.ElementTree` presents it: tag, attribute
pairs, optional text, child elements. -/
inductive Xml where
  | elem (tag : String) (attrib : List (String × String)) (text : Option String)
      (children : List Xml)

/-- Tag of an element. -/
def Xml.tag : Xml → String
  | .elem t _ _ _ => t

/-- Attribute pairs of an element. -/
def Xml.attrib : Xml → List (String × String)
  | .elem _ a _ _ => a

/-- Text of an element (`None` for an empty element). -/
def Xml.text : Xml → Option String
  | .elem _ _ s _ => s

/-- Child elements. -/
def Xml.children : Xml → List Xml
  | .elem _ _ _ cs => cs

/-- `root.iter()`: the element and all its descendants in document order. -/
def Xml.allElems : Xml → List Xml
  | .elem t a s cs =>
      .elem t a s cs :: (cs.attach.map (fun c => Xml.allElems c.1)).flatten
decreasing_by
  have := List.sizeOf_lt_of_mem c.2
  simp only [Xml.elem.sizeOf_spec]
  omega

/-- `root.findall(".//…")` search space: all strict descendants in document
order. -/
def Xml.desc : Xml → List Xml
  | .elem _ _ _ cs => (cs.attach.map (fun c => Xml.allElems c.1)).flatten

end IikoServerClient

/-- Python `s.split(sep)` for a single-character separator: keeps empty
fields, never drops a trailing field. -/
def charSplit (sep : Char) : List Char → List (List Char)
  | [] => [[]]
  | c :: rest =>
    if c = sep then [] :: charSplit sep rest
    else
      match charSplit sep rest with
      | [] => [[c]]
      | g :: gs => (c :: g) :: gs

/-- Python `s.split(sep)` on strings. -/
def strSplit (s : String) (sep : Char) : List String :=
  (charSplit sep s.toList).map String.mk

/-- Python `s.startswith(p)`. -/
def startsWithStr (s p : String) : Bool :=
  charsAtHead p.toList s.toList

/-- Python dict assignment `m[k] = v`: replace in place or append. -/
def dict_set (m : List (String × JVal)) (k : String) (v : JVal) : List (String × JVal) :=
  match m with
  | [] => [(k, v)]
  | (k0, v0) :: rest => if k0 = k then (k0, v) :: rest else (k0, v0) :: dict_set rest k v

namespace IikoServerClient

/-- Row dict built from one XML row element in `_parse_xml_rows`: child tag →
child text, then overridden by the attribute pairs when any exist. -/
def xml_row_data (row : Xml) : List (String × JVal) :=
  let base := row.children.foldl
    (fun m c => dict_set m c.tag (match c.text with
      | some s => JVal.jstr s
      | none => JVal.jnull)) []
  if row.attrib.isEmpty then base
  else row.attrib.foldl (fun m p => dict_set m p.1 (JVal.jstr p.2)) base

/-- The candidate-tag loop of `_parse_xml_rows`: for the first tag with any
matches, collect the non-empty row dicts and stop. -/
def rows_for_tags (root : Xml) : List String → List JVal
  | [] => []
  | t :: ts =>
    let found := root.desc.filter (fun e => e.tag = t)
    if found.isEmpty then rows_for_tags root ts
    else ((found.map xml_row_data).filter (fun rd => !rd.isEmpty)).map JVal.jobj

/-- Fallback of `_parse_xml_rows`: any element carrying attributes whose tag
is not a known wrapper tag becomes a row of its attributes. -/
def xml_attrib_rows (root : Xml) : List JVal :=
  (root.allElems.filter (fun e =>
      !e.attrib.isEmpty && !(["olap", "report", "result", "response"].contains e.tag))).map
    (fun e => JVal.jobj (e.attrib.map (fun p => (p.1, JVal.jstr p.2))))

/-- Embedding of `IikoServerClient._parse_xml_rows`, with `ET.fromstring`
abstracted as an `xmlParse` oracle (`none` models `ET.ParseError`, answered
with `[]`). -/
def parse_xml_rows (xmlParse : String → Option Xml) (xml_text : String) : List JVal :=
  match xmlParse xml_text with
  | none => []
  | some root =>
    let rows := rows_for_tags root ["row", "record", "item", "r"]
    if rows.isEmpty then xml_attrib_rows root else rows

/-- `dict(zip(headers, values))`: truncating zip, later duplicate keys win. -/
def zip_to_dict (ks vs : List String) : List (String × JVal) :=
  (ks.zip vs).foldl (fun m p => dict_set m p.1 (JVal.jstr p.2)) []

/-- Embedding of `IikoServerClient._parse_tsv_rows`: first line is the
header, every later non-blank line becomes a row dict. -/
def parse_tsv_rows (text : String) : List JVal :=
  let lines := strSplit (pyStrip text) '\n'
  if lines.length < 2 then []
  else
    match lines with
    | [] => []
    | h :: rest =>
      let headers := strSplit h '\t'
      rest.foldl
        (fun rows line =>
          if pyStrip line = "" then rows
          else rows ++ [JVal.jobj (zip_to_dict headers (strSplit line '\t'))]) []

/-- Container-key probe of the JSON branch of `_parse_olap_response`: the
first of `data`, `rows`, `records`, `items`, `result` holding a list. -/
def probe_containers (fs : List (String × JVal)) : List String → Option (List JVal)
  | [] => none
  | k :: ks =>
    match assocFind fs k with
    | some (.jarr xs) => some xs
    | some (.jnull) => probe_containers fs ks
    | some (.jbool _) => probe_containers fs ks
    | some (.jnum _) => probe_containers fs ks
    | some (.jstr _) => probe_containers fs ks
    | some (.jobj _) => probe_containers fs ks
    | none => probe_containers fs ks

/-- Embedding of `IikoServerClient._parse_olap_response` with `json.loads`
and `ET.fromstring` abstracted as parser oracles (`none` models the library
raising).  A successful JSON decode that is neither a list nor a dict falls
through to the XML/TSV checks exactly as the Python control flow does. -/
def parse_olap_response (jsonParse : String → Option JVal)
    (xmlParse : String → Option Xml) (raw : String) : List JVal :=
  let text := pyStrip raw
  if text = "" then []
  else
    let jsonResult : Option (List JVal) :=
      if startsWithStr text "\x7b" || startsWithStr text "[" then
        match jsonParse text with
        | some (.jarr xs) => some xs
        | some (.jobj fs) =>
          match probe_containers fs ["data", "rows", "records", "items", "result"] with
          | some xs => some xs
          | none => some (if fs.isEmpty then [] else [JVal.jobj fs])
        | _ => none
      else none
    match jsonResult with
    | some rows => rows
    | none =>
      if startsWithStr text "<" then parse_xml_rows xmlParse text
      else if strContains text "\t" then parse_tsv_rows text
      else []

end IikoServerClient

/-- Row-mapping test: is the value a JSON object (a dict row)? -/
def JVal.isObj : JVal → Bool
  | .jobj _ => true
  | .jnull => false
  | .jbool _ => false
  | .jnum _ => false
  | .jstr _ => false
  | .jarr _ => false

/-- Concrete stand-in for `json.loads` agreeing with it on the probe input
`"[1,2]"` (a JSON array of two numbers). -/
def json_parse_sample : String → Option JVal := fun s =>
  if s = "[1,2]" then some (.jarr [.jnum 1, .jnum 2]) else none

/-- C1 counterexample: on the input `"[1,2]"` (valid JSON), the normalizer
returns the decoded list as-is — `[1, 2]` — whose elements are numbers, not
row mappings, so the output is not a list of row mappings. -/
theorem C1_counterexample_scalar_array_rows :
    IikoServerClient.parse_olap_response json_parse_sample (fun _ => none) "[1,2]" =
      [JVal.jnum 1, JVal.jnum 2] ∧
    JVal.isObj (JVal.jnum 1) = false :=
  ⟨rfl, rfl⟩

theorem parse_tsv_rows_from (headers : List String) (lines : List String) :
    ∀ acc : List JVal, (∀ r ∈ acc, JVal.isObj r = true) →
      ∀ r ∈ lines.foldl
        (fun rows line =>
          if pyStrip line = "" then rows
          else rows ++ [JVal.jobj (IikoServerClient.zip_to_dict headers (strSplit line '\t'))])
        acc, JVal.isObj r = true := by
  induction lines with
  | nil => intro acc hacc r hr; exact hacc r hr
  | cons line rest ih =>
    intro acc hacc r hr
    rw [List.foldl_cons] at hr
    split at hr
    · exact ih acc hacc r hr
    · refine ih _ ?_ r hr
      intro x hx
      rcases List.mem_append.mp hx with h | h
      · exact hacc x h
      · simp only [List.mem_singleton] at h
        subst h
        rfl

theorem parse_tsv_rows_obj (text : String) :
    ∀ r ∈ IikoServerClient.parse_tsv_rows text, JVal.isObj r = true := by
  intro r hr
  unfold IikoServerClient.parse_tsv_rows at hr
  simp only at hr
  split at hr
  · exact absurd hr (List.not_mem_nil r)
  · split at hr
    · exact absurd hr (List.not_mem_nil r)
    · exact parse_tsv_rows_from _ _ [] (fun x hx => absurd hx (List.not_mem_nil x)) r hr

theorem parse_xml_rows_obj (xmlParse : String → Option IikoServerClient.Xml) (s : String) :
    ∀ r ∈ IikoServerClient.parse_xml_rows xmlParse s, JVal.isObj r = true := by
  unfold IikoServerClient.parse_xml_rows
  rcases xmlParse s with _ | root
  · intro r hr; exact absurd hr (List.not_mem_nil r)
  · intro r hr
    simp only at hr
    split at hr
    · unfold IikoServerClient.xml_attrib_rows at hr
      obtain ⟨e, _, he⟩ := List.mem_map.mp hr
      rw [← he]; rfl
    · rename_i hrows
      revert hr
      generalize ["row", "record", "item", "r"] = tags
      induction tags with
      | nil => intro hr; exact absurd hr (List.not_mem_nil r)
      | cons t ts ih =>
        intro hr
        unfold IikoServerClient.rows_for_tags at hr
        simp only at hr
        split at hr
        · exact ih hr
        · obtain ⟨rd, _, he⟩ := List.mem_map.mp hr
          rw [← he]; rfl

/-- C1 amended: `_parse_olap_response` is total by construction (every branch
returns a list; decode failures of the JSON/XML libraries are modelled by the
parser oracles answering `none` and are caught); the empty string, and any
input whose stripped text starts with none of `{`, `[`, `<` and contains no
tab, yield the empty list; every row produced by the XML and TSV branches is
a row mapping.  (A JSON payload may decode to a list of non-mapping values,
which is returned as-is — see the counterexample.) -/
theorem C1_parse_olap_response_total (jsonParse : String → Option JVal)
    (xmlParse : String → Option IikoServerClient.Xml) (raw : String) :
    (pyStrip raw = "" →
      IikoServerClient.parse_olap_response jsonParse xmlParse raw = []) ∧
    (startsWithStr (pyStrip raw) "\x7b" = false →
     startsWithStr (pyStrip raw) "[" = false →
     startsWithStr (pyStrip raw) "<" = false →
     strContains (pyStrip raw) "\t" = false →
      IikoServerClient.parse_olap_response jsonParse xmlParse raw = []) ∧
    (∀ r ∈ IikoServerClient.parse_xml_rows xmlParse raw, JVal.isObj r = true) ∧
    (∀ r ∈ IikoServerClient.parse_tsv_rows raw, JVal.isObj r = true) := by
  refine ⟨?_, ?_, parse_xml_rows_obj xmlParse raw, parse_tsv_rows_obj raw⟩
  · intro h
    unfold IikoServerClient.parse_olap_response
    rw [if_pos h]
  · intro h1 h2 h3 h4
    unfold IikoServerClient.parse_olap_response
    by_cases he : pyStrip raw = ""
    · rw [if_pos he]
    · rw [if_neg he]
      simp only [h1, h2, h3, h4, Bool.or_false, Bool.false_eq_true, if_false]

theorem C1_parse_olap_response_total_witness :
    IikoServerClient.parse_olap_response (fun _ => none) (fun _ => none) "   " = [] ∧
    IikoServerClient.parse_olap_response (fun _ => none) (fun _ => none) "plain text" = [] :=
  ⟨(C1_parse_olap_response_total (fun _ => none) (fun _ => none) "   ").1 (by decide),
   (C1_parse_olap_response_total (fun _ => none) (fun _ => none) "plain text").2.1
     (by decide) (by decide) (by decide) (by decide)⟩

/-- Python `float(x)` as applied to OLAP row values in
`iiko_server_client.py`.  Unlike `_safe_float`, the source call site would
raise on a non-numeric string or a container, aborting the whole summary;
such rows never yield a computed report, and the embedding maps them to 0. -/
def pyFloat : JVal → ℚ
  | .jnum q => q
  | .jbool b => if b then 1 else 0
  | .jstr s => (pyFloatOfString s).getD 0
  | .jnull => 0
  | .jarr _ => 0
  | .jobj _ => 0

namespace IikoServerClient

/-- Group of an OLAP row:
`row.get("DishGroup") or row.get("Группа блюда") or "?"`. -/
def row_dish_group (row : JVal) : String :=
  (pyOrJ (row.get "DishGroup") (pyOrJ (row.get "Группа блюда") (.jstr "?"))).asKey

/-- Revenue of an OLAP row: `float(row.get("DishDiscountSumInt") or
row.get("Сумма со скидкой") or row.get("DishSumInt") or 0)`. -/
def row_revenue (row : JVal) : ℚ :=
  pyFloat (pyOrJ (row.get "DishDiscountSumInt")
    (pyOrJ (row.get "Сумма со скидкой") (pyOrJ (row.get "DishSumInt") (.jnum 0))))

/-- Kitchen revenue total of `get_cook_productivity_summary`: the sum of the
revenues of the dish-group rows whose group `_is_bar_group` rejects. -/
def kitchen_rev_total (rows : List JVal) : ℚ :=
  rows.foldl
    (fun s row =>
      if is_bar_group (row_dish_group row) then s else qadd s (row_revenue row))
    0

/-- `num_days = len(day_rows) if day_rows else 1`. -/
def productivity_num_days (day_rows : List JVal) : ℕ :=
  if day_rows.isEmpty then 1 else day_rows.length

/-- Qualitative band of the productivity coefficient. -/
inductive ProdBand where
  | excellent
  | good
  | satisfactory
  | low
deriving DecidableEq

/-- Outcome of the productivity section of `get_cook_productivity_summary`:
either the computed figures with their band, or the configuration-missing
message with its two flags. -/
inductive ProdOutcome where
  | computed (daily_total per_cook coeff : ℚ) (band : ProdBand)
  | config_missing (missing_cooks missing_salary : Bool)

/-- Embedding of the productivity branch of `get_cook_productivity_summary`:
compute `kitchen revenue / days / cooks / salary` and band it when the
effective headcount and wage are positive and dish-group rows exist;
otherwise emit the configuration-missing result, performing no division. -/
def cook_productivity (effective_cooks : ℤ) (effective_salary : ℚ)
    (dish_group_rows day_rows : List JVal) : ProdOutcome :=
  if 0 < effective_cooks ∧ 0 < effective_salary ∧ dish_group_rows.isEmpty = false then
    let num_days := productivity_num_days day_rows
    let kr := kitchen_rev_total dish_group_rows
    let daily_total := qdiv kr (num_days : ℚ)
    let per_cook := qdiv daily_total (effective_cooks : ℚ)
    let coeff := qdiv per_cook effective_salary
    .computed daily_total per_cook coeff
      (if 3 ≤ coeff then .excellent
       else if 2 ≤ coeff then .good
       else if 1 ≤ coeff then .satisfactory
       else .low)
  else
    .config_missing (decide (effective_cooks ≤ 0)) (decide (effective_salary ≤ 0))

end IikoServerClient

/-- C5: with positive effective cook headcount H and per-shift wage W, the
productivity summary computes coefficient = (R / D) / H / W from the kitchen
revenue total R of the dish-group rows and the day count D, with banding
`≥3` excellent, `≥2` good, `≥1` satisfactory, `<1` low; with H ≤ 0 or W ≤ 0
it instead emits the configuration-missing result whose flags name exactly
the non-positive inputs, and performs no division. -/
theorem C5_cook_productivity_coefficient (cooks : ℤ) (salary : ℚ)
    (rows days : List JVal) (hrows : rows.isEmpty = false) :
    (0 < cooks → 0 < salary →
      ∃ band,
        IikoServerClient.cook_productivity cooks salary rows days =
          .computed
            (IikoServerClient.kitchen_rev_total rows /
              (IikoServerClient.productivity_num_days days : ℚ))
            (IikoServerClient.kitchen_rev_total rows /
              (IikoServerClient.productivity_num_days days : ℚ) / (cooks : ℚ))
            (IikoServerClient.kitchen_rev_total rows /
              (IikoServerClient.productivity_num_days days : ℚ) / (cooks : ℚ) / salary)
            band ∧
        (band = .excellent ↔
          3 ≤ IikoServerClient.kitchen_rev_total rows /
            (IikoServerClient.productivity_num_days days : ℚ) / (cooks : ℚ) / salary) ∧
        (band = .good ↔
          2 ≤ IikoServerClient.kitchen_rev_total rows /
            (IikoServerClient.productivity_num_days days : ℚ) / (cooks : ℚ) / salary ∧
          IikoServerClient.kitchen_rev_total rows /
            (IikoServerClient.productivity_num_days days : ℚ) / (cooks : ℚ) / salary < 3) ∧
        (band = .satisfactory ↔
          1 ≤ IikoServerClient.kitchen_rev_total rows /
            (IikoServerClient.productivity_num_days days : ℚ) / (cooks : ℚ) / salary ∧
          IikoServerClient.kitchen_rev_total rows /
            (IikoServerClient.productivity_num_days days : ℚ) / (cooks : ℚ) / salary < 2) ∧
        (band = .low ↔
          IikoServerClient.kitchen_rev_total rows /
            (IikoServerClient.productivity_num_days days : ℚ) / (cooks : ℚ) / salary < 1)) ∧
    (cooks ≤ 0 ∨ salary ≤ 0 →
      IikoServerClient.cook_productivity cooks salary rows days =
        .config_missing (decide (cooks ≤ 0)) (decide (salary ≤ 0))) := by
  constructor
  · intro hc hs
    unfold IikoServerClient.cook_productivity
    rw [if_pos ⟨hc, hs, hrows⟩]
    simp only [qdiv_eq]
    set coeff := IikoServerClient.kitchen_rev_total rows /
      (IikoServerClient.productivity_num_days days : ℚ) / (cooks : ℚ) / salary with hco
    by_cases h3 : 3 ≤ coeff
    · exact ⟨.excellent, by rw [if_pos h3],
        iff_of_true rfl h3,
        iff_of_false (by decide) (fun h => by linarith [h.2]),
        iff_of_false (by decide) (fun h => by linarith [h.2]),
        iff_of_false (by decide) (fun h => by linarith)⟩
    · by_cases h2 : 2 ≤ coeff
      · exact ⟨.good, by rw [if_neg h3, if_pos h2],
          iff_of_false (by decide) (fun h => h3 h),
          iff_of_true rfl ⟨h2, not_le.mp h3⟩,
          iff_of_false (by decide) (fun h => by linarith [h.2]),
          iff_of_false (by decide) (fun h => by linarith)⟩
      · by_cases h1 : 1 ≤ coeff
        · exact ⟨.satisfactory, by rw [if_neg h3, if_neg h2, if_pos h1],
            iff_of_false (by decide) (fun h => h3 h),
            iff_of_false (by decide) (fun h => h2 h.1),
            iff_of_true rfl ⟨h1, not_le.mp h2⟩,
            iff_of_false (by decide) (fun h => by linarith)⟩
        · exact ⟨.low, by rw [if_neg h3, if_neg h2, if_neg h1],
            iff_of_false (by decide) (fun h => h3 h),
            iff_of_false (by decide) (fun h => h2 h.1),
            iff_of_false (by decide) (fun h => h1 h.1),
            iff_of_true rfl (not_le.mp h1)⟩
  · intro hneg
    unfold IikoServerClient.cook_productivity
    rw [if_neg ?_]
    intro ⟨hc, hs, _⟩
    rcases hneg with h | h
    · exact absurd hc (by omega)
    · exact absurd hs (by linarith)

theorem C5_cook_productivity_coefficient_witness :
    ∃ band,
      IikoServerClient.cook_productivity 2 3000
          [JVal.jobj [("DishGroup", JVal.jstr "Супы"),
                      ("DishDiscountSumInt", JVal.jnum 12000)]]
          [JVal.jobj [("OpenDate.Typed", JVal.jstr "2024-01-01")]] =
        .computed
          (IikoServerClient.kitchen_rev_total
              [JVal.jobj [("DishGroup", JVal.jstr "Супы"),
                          ("DishDiscountSumInt", JVal.jnum 12000)]] /
            (IikoServerClient.productivity_num_days
              [JVal.jobj [("OpenDate.Typed", JVal.jstr "2024-01-01")]] : ℚ))
          (IikoServerClient.kitchen_rev_total
              [JVal.jobj [("DishGroup", JVal.jstr "Супы"),
                          ("DishDiscountSumInt", JVal.jnum 12000)]] /
            (IikoServerClient.productivity_num_days
              [JVal.jobj [("OpenDate.Typed", JVal.jstr "2024-01-01")]] : ℚ) / ((2 : ℤ) : ℚ))
          (IikoServerClient.kitchen_rev_total
              [JVal.jobj [("DishGroup", JVal.jstr "Супы"),
                          ("DishDiscountSumInt", JVal.jnum 12000)]] /
            (IikoServerClient.productivity_num_days
              [JVal.jobj [("OpenDate.Typed", JVal.jstr "2024-01-01")]] : ℚ) / ((2 : ℤ) : ℚ) / 3000)
          band ∧
        (band = .excellent ↔
          3 ≤ IikoServerClient.kitchen_rev_total
              [JVal.jobj [("DishGroup", JVal.jstr "Супы"),
                          ("DishDiscountSumInt", JVal.jnum 12000)]] /
            (IikoServerClient.productivity_num_days
              [JVal.jobj [("OpenDate.Typed", JVal.jstr "2024-01-01")]] : ℚ) / ((2 : ℤ) : ℚ) / 3000) ∧
        (band = .good ↔
          2 ≤ IikoServerClient.kitchen_rev_total
              [JVal.jobj [("DishGroup", JVal.jstr "Супы"),
                          ("DishDiscountSumInt", JVal.jnum 12000)]] /
            (IikoServerClient.productivity_num_days
              [JVal.jobj [("OpenDate.Typed", JVal.jstr "2024-01-01")]] : ℚ) / ((2 : ℤ) : ℚ) / 3000 ∧
          IikoServerClient.kitchen_rev_total
              [JVal.jobj [("DishGroup", JVal.jstr "Супы"),
                          ("DishDiscountSumInt", JVal.jnum 12000)]] /
            (IikoServerClient.productivity_num_days
              [JVal.jobj [("OpenDate.Typed", JVal.jstr "2024-01-01")]] : ℚ) / ((2 : ℤ) : ℚ) / 3000 < 3) ∧
        (band = .satisfactory ↔
          1 ≤ IikoServerClient.kitchen_rev_total
              [JVal.jobj [("DishGroup", JVal.jstr "Супы"),
                          ("DishDiscountSumInt", JVal.jnum 12000)]] /
            (IikoServerClient.productivity_num_days
              [JVal.jobj [("OpenDate.Typed", JVal.jstr "2024-01-01")]] : ℚ) / ((2 : ℤ) : ℚ) / 3000 ∧
          IikoServerClient.kitchen_rev_total
              [JVal.jobj [("DishGroup", JVal.jstr "Супы"),
                          ("DishDiscountSumInt", JVal.jnum 12000)]] /
            (IikoServerClient.productivity_num_days
              [JVal.jobj [("OpenDate.Typed", JVal.jstr "2024-01-01")]] : ℚ) / ((2 : ℤ) : ℚ) / 3000 < 2) ∧
        (band = .low ↔
          IikoServerClient.kitchen_rev_total
              [JVal.jobj [("DishGroup", JVal.jstr "Супы"),
                          ("DishDiscountSumInt", JVal.jnum 12000)]] /
            (IikoServerClient.productivity_num_days
              [JVal.jobj [("OpenDate.Typed", JVal.jstr "2024-01-01")]] : ℚ) / ((2 : ℤ) : ℚ) / 3000 < 1) :=
  (C5_cook_productivity_coefficient 2 3000
      [JVal.jobj [("DishGroup", JVal.jstr "Супы"), ("DishDiscountSumInt", JVal.jnum 12000)]]
      [JVal.jobj [("OpenDate.Typed", JVal.jstr "2024-01-01")]]
      (by decide)).1 (by decide) (by decide)

namespace IikoClient

/-- `item.get("productId", "")` of a stop-list entry, as the lookup key it
becomes. -/
def sl_product_id (item : JVal) : String := (item.getD "productId" (.jstr "")).asKey

/-- `item.get("sku", "")` of a stop-list entry. -/
def sl_sku (item : JVal) : String := (item.getD "sku" (.jstr "")).asKey

/-- `item.get("balance", 0)` of a stop-list entry, the numeric stock
balance. -/
def sl_balance (item : JVal) : ℚ := pyFloat (item.getD "balance" (.jnum 0))

/-- Catalog resolution of a stop-list entry:
`product_map.get(product_id) or product_map.get(sku) or {}`. -/
def stop_item_info (pm : ProductMap) (item : JVal) : Option ProductInfo :=
  match assocFind pm (sl_product_id item) with
  | some info => some info
  | none => assocFind pm (sl_sku item)

/-- `product_info.get("name", "")` of a stop-list entry. -/
def stop_item_name (pm : ProductMap) (item : JVal) : String :=
  ((stop_item_info pm item).map ProductInfo.name).getD ""

/-- `product_info.get("group", "")` of a stop-list entry. -/
def stop_item_group (pm : ProductMap) (item : JVal) : String :=
  ((stop_item_info pm item).map ProductInfo.group).getD ""

/-- `label = name or (f"арт. {sku}" if sku else None)`: the display label, or
`None` when the entry resolves to no name and carries no sku. -/
def stop_item_label (pm : ProductMap) (item : JVal) : Option String :=
  if stop_item_name pm item ≠ "" then some (stop_item_name pm item)
  else if sl_sku item ≠ "" then some ("арт. " ++ sl_sku item)
  else none

/-- The four stop-list buckets of `_get_stop_list_items`. -/
structure StopListBuckets where
  bar_stop : List String
  bar_limits : List String
  kitchen_stop : List String
  kitchen_limits : List String

/-- Python `f"{balance:.0f}"`, modelled as rounding half away from zero
upward (`⌊q + 1/2⌋`); CPython rounds halves to even, a difference only at
exact halves and immaterial to the bucket-membership claims. -/
def py_format0 (q : ℚ) : String := toString (qadd q (Rat.divInt 1 2)).floor

/-- One iteration of the stop-list loop of `_get_stop_list_items`: a
label-less entry is skipped (`continue`), everything else lands in one of the
four buckets by bar/kitchen classification and the sign of the balance. -/
def stop_list_step (pm : ProductMap) (acc : StopListBuckets) (item : JVal) :
    StopListBuckets :=
  match stop_item_label pm item with
  | none => acc
  | some label =>
    let is_bar := is_bar_item (stop_item_name pm item) (stop_item_group pm item)
    if sl_balance item ≤ 0 then
      let line := "  🔴 " ++ label ++ " — нет в наличии"
      if is_bar then { acc with bar_stop := acc.bar_stop ++ [line] }
      else { acc with kitchen_stop := acc.kitchen_stop ++ [line] }
    else
      let line := "  🟡 " ++ label ++ " — остаток: " ++ py_format0 (sl_balance item)
      if is_bar then { acc with bar_limits := acc.bar_limits ++ [line] }
      else { acc with kitchen_limits := acc.kitchen_limits ++ [line] }

/-- Embedding of `IikoClient._get_stop_list_items` over the triple-nested
stop-list payload (`terminalGroupStopLists` → terminal-group items → item
entries). -/
def get_stop_list_items (pm : ProductMap) (payload : List (List (List JVal))) :
    StopListBuckets :=
  payload.foldl
    (fun acc org => org.foldl (fun acc tg => tg.foldl (stop_list_step pm) acc) acc)
    ⟨[], [], [], []⟩

/-- Total position count reported by the stop-list summaries: the four
buckets together. -/
def stop_list_total (b : StopListBuckets) : ℕ :=
  b.bar_stop.length + b.bar_limits.length + b.kitchen_stop.length + b.kitchen_limits.length

/-- The silent-skip condition of the claim: productId and sku resolve to no
catalog name and the sku field is empty. -/
def stop_item_skipped (pm : ProductMap) (item : JVal) : Bool :=
  decide (stop_item_name pm item = "" ∧ sl_sku item = "")

end IikoClient

theorem stop_list_step_skipped (pm : IikoClient.ProductMap)
    (acc : IikoClient.StopListBuckets) (item : JVal)
    (h : IikoClient.stop_item_skipped pm item = true) :
    IikoClient.stop_list_step pm acc item = acc := by
  obtain ⟨hn, hs⟩ := of_decide_eq_true h
  unfold IikoClient.stop_list_step IikoClient.stop_item_label
  rw [if_neg (by simp [hn]), if_neg (by simp [hs])]

theorem foldl_skip_id {α β : Type} (f : β → α → β) (p : α → Bool)
    (hid : ∀ b a, p a = true → f b a = b) :
    ∀ (l : List α) (b : β), l.foldl f b = (l.filter (fun a => !p a)).foldl f b := by
  intro l
  induction l with
  | nil => intro b; rfl
  | cons a rest ih =>
    intro b
    rcases hpa : p a with _ | _
    · rw [List.foldl_cons, List.filter_cons, if_pos (by simp [hpa]), List.foldl_cons, ih]
    · rw [List.foldl_cons, List.filter_cons, if_neg (by simp [hpa]), hid b a hpa, ih]

theorem stop_list_org_filter (pm : IikoClient.ProductMap) :
    ∀ (org : List (List JVal)) (acc : IikoClient.StopListBuckets),
      org.foldl (fun acc tg => tg.foldl (IikoClient.stop_list_step pm) acc) acc =
        (org.map (fun tg => tg.filter (fun it => !IikoClient.stop_item_skipped pm it))).foldl
          (fun acc tg => tg.foldl (IikoClient.stop_list_step pm) acc) acc := by
  intro org
  induction org with
  | nil => intro acc; rfl
  | cons tg rest ih =>
    intro acc
    rw [List.map_cons, List.foldl_cons, List.foldl_cons,
      foldl_skip_id (IikoClient.stop_list_step pm) (IikoClient.stop_item_skipped pm)
        (fun b a hpa => stop_list_step_skipped pm b a hpa) tg acc, ih]

/-- C10: a stop-list entry whose productId and sku both fail to resolve to a
catalog name and whose sku is empty is silently skipped: the four buckets of
`_get_stop_list_items` over any payload coincide with the buckets over the
payload with all such entries removed, one skipped entry changes nothing, and
no summary total counts them. -/
theorem C10_unresolvable_entries_skipped (pm : IikoClient.ProductMap)
    (payload : List (List (List JVal))) :
    IikoClient.get_stop_list_items pm payload =
      IikoClient.get_stop_list_items pm
        (payload.map (fun org => org.map (fun tg =>
          tg.filter (fun it => !IikoClient.stop_item_skipped pm it)))) ∧
    (∀ acc item, IikoClient.stop_item_skipped pm item = true →
      IikoClient.stop_list_step pm acc item = acc) ∧
    IikoClient.stop_list_total (IikoClient.get_stop_list_items pm payload) =
      IikoClient.stop_list_total (IikoClient.get_stop_list_items pm
        (payload.map (fun org => org.map (fun tg =>
          tg.filter (fun it => !IikoClient.stop_item_skipped pm it))))) := by
  have hmain : IikoClient.get_stop_list_items pm payload =
      IikoClient.get_stop_list_items pm
        (payload.map (fun org => org.map (fun tg =>
          tg.filter (fun it => !IikoClient.stop_item_skipped pm it)))) := by
    unfold IikoClient.get_stop_list_items
    generalize (⟨[], [], [], []⟩ : IikoClient.StopListBuckets) = acc0
    induction payload generalizing acc0 with
    | nil => rfl
    | cons org rest ih =>
      rw [List.map_cons, List.foldl_cons, List.foldl_cons, stop_list_org_filter pm org acc0, ih]
  exact ⟨hmain, fun acc item h => stop_list_step_skipped pm acc item h, by rw [hmain]⟩

theorem C3_deleted_orders_filtered_witness :
    IikoClient.order_is_deleted (JVal.jobj [("sum", JVal.jnum 5)]) = false :=
  (C3_deleted_orders_filtered
      [JVal.jobj [("isDeleted", JVal.jbool true)], JVal.jobj [("sum", JVal.jnum 5)]]
      (fun _ _ => .error "") []).2.1
    (JVal.jobj [("sum", JVal.jnum 5)]) (List.mem_singleton.mpr rfl)

theorem C10_unresolvable_entries_skipped_witness :
    IikoClient.stop_list_step [] ⟨[], [], [], []⟩
        (JVal.jobj [("productId", JVal.jstr "zzz")]) =
      ⟨[], [], [], []⟩ :=
  (C10_unresolvable_entries_skipped []
      [[[JVal.jobj [("productId", JVal.jstr "zzz")]]]]).2.1
    ⟨[], [], [], []⟩ (JVal.jobj [("productId", JVal.jstr "zzz")]) (by decide)
